import Mathlib

/-!
# FunCube Dongle Pro+ status reader (`main.go`)

A shallow embedding of the command table, the two filter enumerations, the
session buffer, the eight read accessors and the function `main` of `main.go`,
followed by the theorems that relate the embedding to the written
specification.

Conventions of the embedding:

* a Go `byte` is a `Fin 256`; a Go `uint32` is a natural number reduced
  modulo `2 ^ 32` after every operation that could leave the range;
* a Go `[]byte` is a `List Byte`; the slices of this program are never
  re-sliced in place, so capacity and length coincide;
* the value of `string(b)` is kept as the list of its bytes;
* the HID device is outside the program and is a parameter: a state type
  together with the outcome of `Write`, `Read` and `Close` on it;
* the enumeration and the opening of devices are outside the program as
  well and are a second parameter;
* `log.Fatal` and run-time panics end the run; both are outcomes of the
  `Run` state transformer, which also threads a ghost trace of the calls
  made on the device and of the lines printed; `log.Fatal` leaves through
  `os.Exit(1)` and so skips the deferred calls, a panic runs them.
-/

namespace Fcdpp

/-- A Go `byte`. -/
abbrev Byte := Fin 256

/-! ## Command table (`main.go` lines 10-30) -/

def FCD_HID_CMD_QUERY : Byte := 1

def FCD_HID_CMD_SET_FREQUENCY_KHZ : Byte := 100
def FCD_HID_CMD_SET_FREQUENCY_HZ : Byte := 101
def FCD_HID_CMD_GET_FREQUENCY_HZ : Byte := 102

def FCD_HID_CMD_SET_LNA_GAIN : Byte := 110
def FCD_HID_CMD_SET_RF_FILTER : Byte := 113
def FCD_HID_CMD_SET_MIXER_GAIN : Byte := 114
def FCD_HID_CMD_SET_IF_GAIN : Byte := 117
def FCD_HID_CMD_SET_IF_FILTER : Byte := 122
def FCD_HID_CMD_SET_BIAS_TEE : Byte := 126

def FCD_HID_CMD_GET_LNA_GAIN : Byte := 150
def FCD_HID_CMD_GET_RF_FILTER : Byte := 153
def FCD_HID_CMD_GET_MIXER_GAIN : Byte := 154
def FCD_HID_CMD_GET_IF_GAIN : Byte := 157
def FCD_HID_CMD_GET_IF_FILTER : Byte := 162
def FCD_HID_CMD_GET_BIAS_TEE : Byte := 166

/-! ## RF filter selector (`main.go` lines 32-75) -/

/-- Go `type RFFilter byte`: a named type over the raw byte. -/
structure RFFilter where
  raw : Byte
deriving DecidableEq, Repr

def TRFE_0_4 : RFFilter := ⟨0⟩
def TRFE_4_8 : RFFilter := ⟨1⟩
def TRFE_8_16 : RFFilter := ⟨2⟩
def TRFE_16_32 : RFFilter := ⟨3⟩
def TRFE_32_75 : RFFilter := ⟨4⟩
def TRFE_75_125 : RFFilter := ⟨5⟩
def TRFE_125_250 : RFFilter := ⟨6⟩
def TRFE_145 : RFFilter := ⟨7⟩
def TRFE_410_875 : RFFilter := ⟨8⟩
def TRFE_435 : RFFilter := ⟨9⟩
def TRFE_875_2000 : RFFilter := ⟨10⟩

/-- The `switch` of `func (filter RFFilter) String() string`, case by case,
with the statement after the switch as the last branch. -/
def RFFilter.String (filter : RFFilter) : String :=
  if filter = TRFE_0_4 then "0-4MHz"
  else if filter = TRFE_4_8 then "4-8MHz"
  else if filter = TRFE_8_16 then "8-16MHz"
  else if filter = TRFE_16_32 then "16-32MHz"
  else if filter = TRFE_32_75 then "32-75MHz"
  else if filter = TRFE_75_125 then "75-125MHz"
  else if filter = TRFE_125_250 then "125-250MHz"
  else if filter = TRFE_145 then "145MHz"
  else if filter = TRFE_410_875 then "410-875MHz"
  else if filter = TRFE_435 then "435MHz"
  else if filter = TRFE_875_2000 then "875-2000MHz"
  else "unknown RF filter"

/-- The constants of the RF `const` block, in declaration order. -/
def rfConstants : List RFFilter :=
  [TRFE_0_4, TRFE_4_8, TRFE_8_16, TRFE_16_32, TRFE_32_75, TRFE_75_125,
   TRFE_125_250, TRFE_145, TRFE_410_875, TRFE_435, TRFE_875_2000]

/-! ## IF filter selector (`main.go` lines 77-111) -/

/-- Go `type IFFilter byte`. -/
structure IFFilter where
  raw : Byte
deriving DecidableEq, Repr

def TIFE_200KHZ : IFFilter := ⟨0⟩
def TIFE_300KHZ : IFFilter := ⟨1⟩
def TIFE_600KHZ : IFFilter := ⟨2⟩
def TIFE_1536KHZ : IFFilter := ⟨3⟩
def TIFE_5MHZ : IFFilter := ⟨4⟩
def TIFE_6MHZ : IFFilter := ⟨5⟩
def TIFE_7MHZ : IFFilter := ⟨6⟩
def TIFE_8MHZ : IFFilter := ⟨7⟩

/-- The `switch` of `func (filter IFFilter) String() string`. -/
def IFFilter.String (filter : IFFilter) : String :=
  if filter = TIFE_200KHZ then "200kHz"
  else if filter = TIFE_300KHZ then "300kHz"
  else if filter = TIFE_600KHZ then "600kHz"
  else if filter = TIFE_1536KHZ then "1536kHz"
  else if filter = TIFE_5MHZ then "5MHz"
  else if filter = TIFE_6MHZ then "6MHz"
  else if filter = TIFE_7MHZ then "7MHz"
  else if filter = TIFE_8MHZ then "8MHz"
  else "unknown IF filter"

/-- The constants of the IF `const` block, in declaration order. -/
def ifConstants : List IFFilter :=
  [TIFE_200KHZ, TIFE_300KHZ, TIFE_600KHZ, TIFE_1536KHZ, TIFE_5MHZ, TIFE_6MHZ,
   TIFE_7MHZ, TIFE_8MHZ]

/-! ## The device, the session and the run -/

/-- The part of `hid.Device` the program calls. The library is not part of
the repository, so its behaviour is a parameter. `Write s b` is handed the
whole slice; `Read s n` is handed a slice of length `n` to fill and answers
with the bytes it produced; `Close` result is discarded by the program. -/
structure HidDevice (σ : Type) where
  Write : σ → List Byte → Except String Nat × σ
  Read : σ → Nat → Except String (List Byte) × σ
  Close : σ → σ

/-- Go `type FCDPP struct { dev *hid.Device; buf []byte }`. -/
structure FCDPP (σ : Type) where
  dev : σ
  buf : List Byte

/-- The effects of the program that are visible from outside. -/
inductive Event where
  | devWrite (b : List Byte)
  | devRead (len : Nat)
  | devClose
  | stdout (text : List Byte)
  | enumerate (vendorID productID : Nat)
  | devOpen
deriving DecidableEq, Repr

/-- Process state: the session and the ghost trace, oldest event first. -/
structure Proc (σ : Type) where
  fcdpp : FCDPP σ
  trace : List Event

/-- How a piece of the program ends: it returns, or `log.Fatal` ends the
process, or a run-time panic unwinds it. -/
inductive Exit (α : Type) where
  | ok (a : α)
  | fatal (msg : String)
  | panic (msg : String)
deriving DecidableEq, Repr

/-- A method of `*FCDPP`: from a process state to an outcome and the state
at that point. -/
def Run (σ α : Type) : Type := Proc σ → Exit α × Proc σ

instance {σ : Type} : Monad (Run σ) where
  pure a := fun p => (Exit.ok a, p)
  bind m f := fun p =>
    match m p with
    | (Exit.ok a, q) => f a q
    | (Exit.fatal e, q) => (Exit.fatal e, q)
    | (Exit.panic e, q) => (Exit.panic e, q)

/-- Constructor `NewFCDPP`: `buf: make([]byte, 65, 65)`. -/
def NewFCDPP {σ : Type} (dev : σ) : FCDPP σ :=
  { dev := dev, buf := List.replicate 65 0 }

/-- The assignment `fcdpp.buf[i] = v`, which panics out of range. -/
def setBuf {σ : Type} (i : Nat) (v : Byte) : Run σ Unit := fun p =>
  if i < p.fcdpp.buf.length then
    (Exit.ok (), { p with fcdpp := { p.fcdpp with buf := p.fcdpp.buf.set i v } })
  else (Exit.panic "index out of range", p)

/-- The expression `fcdpp.buf[i]`, which panics out of range. -/
def getBuf {σ : Type} (i : Nat) : Run σ Byte := fun p =>
  match p.fcdpp.buf[i]? with
  | some b => (Exit.ok b, p)
  | none => (Exit.panic "index out of range", p)

/-- Method `clearBuf`: `for i := range fcdpp.buf { fcdpp.buf[i] = 0x00 }`. -/
def FCDPP.clearBuf {σ : Type} : Run σ Unit := fun p =>
  (Exit.ok (),
   { p with fcdpp := { p.fcdpp with
       buf := (List.range p.fcdpp.buf.length).foldl (fun b i => b.set i 0) p.fcdpp.buf } })

/-- What `Read` leaves in a slice `buf` when the device produced `data`:
at most `len(buf)` bytes are stored from the start, the rest is kept. -/
def readInto (buf data : List Byte) : List Byte :=
  data.take buf.length ++ buf.drop data.length

/-- Method `writeRead`: write the buffer, then read into it; an error of either
call goes to `log.Fatal`. -/
def FCDPP.writeRead {σ : Type} (h : HidDevice σ) : Run σ Unit := fun p =>
  match h.Write p.fcdpp.dev p.fcdpp.buf with
  | (Except.error e, d1) =>
    (Exit.fatal e, { fcdpp := { p.fcdpp with dev := d1 },
                     trace := p.trace ++ [Event.devWrite p.fcdpp.buf] })
  | (Except.ok _, d1) =>
    match h.Read d1 p.fcdpp.buf.length with
    | (Except.error e, d2) =>
      (Exit.fatal e, { fcdpp := { p.fcdpp with dev := d2 },
                       trace := p.trace ++ [Event.devWrite p.fcdpp.buf,
                                            Event.devRead p.fcdpp.buf.length] })
    | (Except.ok data, d2) =>
      (Exit.ok (), { fcdpp := { dev := d2, buf := readInto p.fcdpp.buf data },
                     trace := p.trace ++ [Event.devWrite p.fcdpp.buf,
                                          Event.devRead p.fcdpp.buf.length] })

/-- Method `Close`: `fcdpp.dev.Close()`. -/
def FCDPP.Close {σ : Type} (h : HidDevice σ) : Run σ Unit := fun p =>
  (Exit.ok (), { fcdpp := { p.fcdpp with dev := h.Close p.fcdpp.dev },
                 trace := p.trace ++ [Event.devClose] })

/-- Go `bytes.IndexByte(b, c)`: the index of the first `c` in `b`, or `-1`. -/
def IndexByte (b : List Byte) (c : Byte) : Int :=
  match b with
  | [] => -1
  | x :: xs =>
    if x = c then 0
    else
      let r := IndexByte xs c
      if r < 0 then -1 else r + 1

/-- The slice expression `fcdpp.buf[lo:hi]` converted by `string(...)`:
it needs `0 <= lo <= hi <= cap`, and panics otherwise. -/
def sliceBuf {σ : Type} (lo hi : Int) : Run σ (List Byte) := fun p =>
  if 0 ≤ lo ∧ lo ≤ hi ∧ hi ≤ (p.fcdpp.buf.length : Int) then
    (Exit.ok ((p.fcdpp.buf.take hi.toNat).drop lo.toNat), p)
  else (Exit.panic "slice bounds out of range", p)

/-- The whole buffer, as read by an expression. -/
def theBuf {σ : Type} : Run σ (List Byte) := fun p => (Exit.ok p.fcdpp.buf, p)

/-- Conversion `uint32(x)` and the wrap-around of 32-bit arithmetic. -/
def uint32 (x : Nat) : Nat := x % 2 ^ 32

/-- Method `Query`. -/
def FCDPP.Query {σ : Type} (h : HidDevice σ) : Run σ (List Byte) := do
  FCDPP.clearBuf
  setBuf 1 FCD_HID_CMD_QUERY
  FCDPP.writeRead h
  let n := IndexByte (← theBuf) 0
  sliceBuf 2 n

/-- Method `Frequency`. -/
def FCDPP.Frequency {σ : Type} (h : HidDevice σ) : Run σ Nat := do
  FCDPP.clearBuf
  setBuf 1 FCD_HID_CMD_GET_FREQUENCY_HZ
  FCDPP.writeRead h
  let freq := uint32 (← getBuf 2).val
  let freq := uint32 (freq ||| uint32 (uint32 (← getBuf 3).val <<< 8))
  let freq := uint32 (freq ||| uint32 (uint32 (← getBuf 4).val <<< 16))
  let freq := uint32 (freq ||| uint32 (uint32 (← getBuf 5).val <<< 24))
  return freq

/-- Method `LNAGain`. -/
def FCDPP.LNAGain {σ : Type} (h : HidDevice σ) : Run σ Bool := do
  FCDPP.clearBuf
  setBuf 1 FCD_HID_CMD_GET_LNA_GAIN
  FCDPP.writeRead h
  if (← getBuf 2) = 1 then
    return true
  return false

/-- The method `RFFilter` of `*FCDPP`; its result type is the selector type
of the same name. -/
def FCDPP.RFFilter {σ : Type} (h : HidDevice σ) : Run σ RFFilter := do
  FCDPP.clearBuf
  setBuf 1 FCD_HID_CMD_GET_RF_FILTER
  FCDPP.writeRead h
  return RFFilter.mk (← getBuf 2)

/-- Method `MixerGain`. -/
def FCDPP.MixerGain {σ : Type} (h : HidDevice σ) : Run σ Bool := do
  FCDPP.clearBuf
  setBuf 1 FCD_HID_CMD_GET_MIXER_GAIN
  FCDPP.writeRead h
  if (← getBuf 2) = 1 then
    return true
  return false

/-- Method `IFGain`. -/
def FCDPP.IFGain {σ : Type} (h : HidDevice σ) : Run σ Byte := do
  FCDPP.clearBuf
  setBuf 1 FCD_HID_CMD_GET_IF_GAIN
  FCDPP.writeRead h
  return (← getBuf 2)

/-- The method `IFFilter` of `*FCDPP`; its result type is the selector type
of the same name. -/
def FCDPP.IFFilter {σ : Type} (h : HidDevice σ) : Run σ IFFilter := do
  FCDPP.clearBuf
  setBuf 1 FCD_HID_CMD_GET_IF_FILTER
  FCDPP.writeRead h
  return IFFilter.mk (← getBuf 2)

/-- Method `BiasTee`; the command byte is `FCD_HID_CMD_GET_IF_GAIN`, as in the source. -/
def FCDPP.BiasTee {σ : Type} (h : HidDevice σ) : Run σ Bool := do
  FCDPP.clearBuf
  setBuf 1 FCD_HID_CMD_GET_IF_GAIN
  FCDPP.writeRead h
  if (← getBuf 2) = 1 then
    return true
  return false

/-! ## The program `main` (`main.go` lines 223-245) -/

/-- The package-level part of the `hid` library that `main` calls: the
enumeration of the devices with a vendor and product ID, and the opening of
one of the enumerated devices. Like the device, it is a parameter. -/
structure HidHost (ι σ : Type) where
  Enumerate : Nat → Nat → List ι
  Open : ι → Except String σ

/-- A value handed to the verb `%v`: a Go string, an unsigned integer
(`uint32` or `uint8`), a boolean, or a value with a `String` method, kept as
the result of that method. -/
inductive Value where
  | str (s : List Byte)
  | uint (n : Nat)
  | bool (b : Bool)
  | stringer (label : String)

/-- The bytes of an ASCII string literal. -/
def ascii (s : String) : List Byte := s.toList.map (fun c => Fin.ofNat c.toNat)

/-- The text `%v` produces: a string as it is, an integer in decimal, a
boolean as `true` or `false`, a `Stringer` through its `String` method. -/
def formatV : Value → List Byte
  | Value.str s => s
  | Value.uint n => ascii (toString n)
  | Value.bool true => ascii "true"
  | Value.bool false => ascii "false"
  | Value.stringer label => ascii label

/-- The text `%12s` produces for an ASCII string: spaces on the left up to a
width of 12, and the string as it is when it is longer. -/
def formatS12 (s : String) : List Byte :=
  List.replicate (12 - s.length) 32 ++ ascii s

/-- The formatting of `fmt.Printf(format, a1, a2)` for the format strings of
`main`: the verb `%12s` takes the string `a1`, the verb `%v` takes `a2`, and
every other character is copied. -/
def Sprintf : List Char → String → Value → List Byte
  | '%' :: '1' :: '2' :: 's' :: rest, a1, a2 => formatS12 a1 ++ Sprintf rest a1 a2
  | '%' :: 'v' :: rest, a1, a2 => formatV a2 ++ Sprintf rest a1 a2
  | c :: rest, a1, a2 => Fin.ofNat c.toNat :: Sprintf rest a1 a2
  | [], _, _ => []

/-- The call `fmt.Printf(format, a1, a2)`: the formatted text goes to the
standard output; the result of `Printf` is discarded by the program. -/
def Printf {σ : Type} (format : String) (a1 : String) (a2 : Value) : Run σ Unit := fun p =>
  (Exit.ok (), { p with trace := p.trace ++ [Event.stdout (Sprintf format.toList a1 a2)] })

/-- The eight statements of `main` after `defer fcdpp.Close()`: the arguments
of each `Printf` are evaluated, accessor included, before the line is
printed. -/
def mainBody {σ : Type} (h : HidDevice σ) : Run σ Unit := do
  Printf "%12s %v\n" "Query:" (Value.str (← FCDPP.Query h))
  Printf "%12s %v Hz\n" "Freq:" (Value.uint (← FCDPP.Frequency h))
  Printf "%12s %v\n" "LNA gain:" (Value.bool (← FCDPP.LNAGain h))
  Printf "%12s %v\n" "RF filter:" (Value.stringer (← FCDPP.RFFilter h).String)
  Printf "%12s %v\n" "Mixer gain:" (Value.bool (← FCDPP.MixerGain h))
  Printf "%12s %v dB\n" "IF gain:" (Value.uint (← FCDPP.IFGain h).val)
  Printf "%12s %v\n" "IF filter:" (Value.stringer (← FCDPP.IFFilter h).String)
  Printf "%12s %v\n" "Bias tee:" (Value.bool (← FCDPP.BiasTee h))

/-- The end of a function that has `defer fcdpp.Close()` pending, from the
outcome of its body: a return and a panic both run the deferred call, while
`log.Fatal` ends the process through `os.Exit(1)`, which does not run deferred
calls. -/
def deferClose {σ : Type} (h : HidDevice σ) : Exit Unit × Proc σ → Exit Unit × List Event
  | (Exit.ok _, q) => (Exit.ok (), (FCDPP.Close h q).2.trace)
  | (Exit.fatal e, q) => (Exit.fatal e, q.trace)
  | (Exit.panic e, q) => (Exit.panic e, (FCDPP.Close h q).2.trace)

/-- The function `main`: the outcome of the process and its trace. -/
def main {ι σ : Type} (host : HidHost ι σ) (h : HidDevice σ) : Exit Unit × List Event :=
  let devs := host.Enumerate 0x04d8 0xfb31
  let t0 := [Event.enumerate 0x04d8 0xfb31]
  if devs.length ≠ 1 then
    (Exit.fatal "could not open device", t0)
  else
    match devs[0]? with
    | none => (Exit.panic "index out of range", t0)
    | some info =>
      match host.Open info with
      | Except.error e => (Exit.fatal e, t0 ++ [Event.devOpen])
      | Except.ok dev =>
        deferClose h (mainBody h { fcdpp := NewFCDPP dev, trace := t0 ++ [Event.devOpen] })

/-! ## Vocabulary of the statements -/

/-- The report every accessor hands to `Write`: 65 bytes, the command code at
offset 1 and zero everywhere else. -/
def request (cmd : Byte) : List Byte := 0 :: cmd :: List.replicate 63 0

/-- The slices handed to `Write` along a trace, oldest first. -/
def writes : List Event → List (List Byte)
  | [] => []
  | Event.devWrite b :: es => b :: writes es
  | _ :: es => writes es

/-- The number of byte values that `RFFilter.String` does not send to its
fallback label. -/
def rfKnownCount : Nat :=
  ((List.finRange 256).filter
    (fun b => decide (RFFilter.String ⟨b⟩ ≠ "unknown RF filter"))).length

/-- The number of byte values that `IFFilter.String` does not send to its
fallback label. -/
def ifKnownCount : Nat :=
  ((List.finRange 256).filter
    (fun b => decide (IFFilter.String ⟨b⟩ ≠ "unknown IF filter"))).length

/-- What one exchange of a request for `cmd` with the device in state `d`
comes to: the write fails, or the read fails, or the read leaves `buf` in the
65-byte buffer that held the request. -/
inductive Answer (σ : Type) where
  | writeError (e : String) (d : σ)
  | readError (e : String) (d : σ)
  | response (buf : List Byte) (d : σ)

/-- The exchange of the request for `cmd` with the device in state `d`. -/
def exchange {σ : Type} (h : HidDevice σ) (d : σ) (cmd : Byte) : Answer σ :=
  match h.Write d (request cmd) with
  | (Except.error e, d1) => Answer.writeError e d1
  | (Except.ok _, d1) =>
    match h.Read d1 65 with
    | (Except.error e, d2) => Answer.readError e d2
    | (Except.ok data, d2) => Answer.response (readInto (request cmd) data) d2

/-- The result of one outcome under a function of the returned value. -/
def Exit.map {α β : Type} (f : α → β) : Exit α → Exit β
  | Exit.ok a => Exit.ok (f a)
  | Exit.fatal e => Exit.fatal e
  | Exit.panic e => Exit.panic e

/-- An accessor described by its command code and by what it makes of the
buffer left by the read. -/
def accessorRun {σ α : Type} (h : HidDevice σ) (cmd : Byte) (dec : List Byte → Exit α) :
    Run σ α := fun p =>
  match exchange h p.fcdpp.dev cmd with
  | Answer.writeError e d =>
    (Exit.fatal e, { fcdpp := { dev := d, buf := request cmd },
                     trace := p.trace ++ [Event.devWrite (request cmd)] })
  | Answer.readError e d =>
    (Exit.fatal e, { fcdpp := { dev := d, buf := request cmd },
                     trace := p.trace ++ [Event.devWrite (request cmd), Event.devRead 65] })
  | Answer.response buf d =>
    (dec buf, { fcdpp := { dev := d, buf := buf },
                trace := p.trace ++ [Event.devWrite (request cmd), Event.devRead 65] })

/-- The string between offset 2 and the first zero byte of the whole buffer;
a panic when that zero byte is at offset 0 or 1 or does not exist. -/
def decodeQuery (buf : List Byte) : Exit (List Byte) :=
  if 2 ≤ IndexByte buf 0 then Exit.ok ((buf.take (IndexByte buf 0).toNat).drop 2)
  else Exit.panic "slice bounds out of range"

/-- The little-endian value of the bytes at offsets 2 to 5. -/
def decodeFrequency (buf : List Byte) : Nat :=
  (buf.getD 2 0).val + 2 ^ 8 * (buf.getD 3 0).val + 2 ^ 16 * (buf.getD 4 0).val
    + 2 ^ 24 * (buf.getD 5 0).val

/-- The on/off reading of the byte at offset 2: on exactly for the value 1. -/
def decodeBool (buf : List Byte) : Bool := decide (buf.getD 2 0 = 1)

/-- The decimal digits of a number, as bytes. -/
def decimal (n : Nat) : List Byte := ascii (toString n)

/-- A report line as `main` prints it: the label with its colon right-aligned
in 12 characters, one space, the value, the unit, a line feed. -/
def lineAsPrinted (label : String) (value : List Byte) (unit : String) : List Byte :=
  List.replicate (12 - (label.length + 1)) 32 ++ ascii label ++ ascii ":" ++ ascii " "
    ++ value ++ ascii unit ++ ascii "\n"

/-- A report line as the specification words it: the label right-aligned in
12 characters, then a colon, one space, the value, the unit, a line feed. -/
def lineAsSpecified (label : String) (value : List Byte) (unit : String) : List Byte :=
  List.replicate (12 - label.length) 32 ++ ascii label ++ ascii ":" ++ ascii " "
    ++ value ++ ascii unit ++ ascii "\n"

/-- One line of the report: the command code of its exchange and the line
made of the buffer left by the read, or the failure of that decoding. -/
structure Item where
  cmd : Byte
  line : List Byte → Exit (List Byte)

/-- The eight lines of the report, in the order of `main`. -/
def reportItems : List Item :=
  [ { cmd := FCD_HID_CMD_QUERY,
      line := fun buf => (decodeQuery buf).map (fun s => lineAsPrinted "Query" s "") },
    { cmd := FCD_HID_CMD_GET_FREQUENCY_HZ,
      line := fun buf =>
        Exit.ok (lineAsPrinted "Freq" (decimal (decodeFrequency buf)) " Hz") },
    { cmd := FCD_HID_CMD_GET_LNA_GAIN,
      line := fun buf =>
        Exit.ok (lineAsPrinted "LNA gain" (ascii (toString (decodeBool buf))) "") },
    { cmd := FCD_HID_CMD_GET_RF_FILTER,
      line := fun buf =>
        Exit.ok (lineAsPrinted "RF filter" (ascii (RFFilter.mk (buf.getD 2 0)).String) "") },
    { cmd := FCD_HID_CMD_GET_MIXER_GAIN,
      line := fun buf =>
        Exit.ok (lineAsPrinted "Mixer gain" (ascii (toString (decodeBool buf))) "") },
    { cmd := FCD_HID_CMD_GET_IF_GAIN,
      line := fun buf =>
        Exit.ok (lineAsPrinted "IF gain" (decimal (buf.getD 2 0).val) " dB") },
    { cmd := FCD_HID_CMD_GET_IF_FILTER,
      line := fun buf =>
        Exit.ok (lineAsPrinted "IF filter" (ascii (IFFilter.mk (buf.getD 2 0)).String) "") },
    { cmd := FCD_HID_CMD_GET_IF_GAIN,
      line := fun buf =>
        Exit.ok (lineAsPrinted "Bias tee" (ascii (toString (decodeBool buf))) "") } ]

/-- The run of a list of report items from device state `d` and trace `t`:
outcome and trace. A transport error is fatal at once; a decoding failure is
a panic at once; otherwise the line is printed and the next item follows. -/
def report {σ : Type} (h : HidDevice σ) : List Item → σ → List Event → Exit Unit × List Event
  | [], _, t => (Exit.ok (), t)
  | it :: rest, d, t =>
    match exchange h d it.cmd with
    | Answer.writeError e _ => (Exit.fatal e, t ++ [Event.devWrite (request it.cmd)])
    | Answer.readError e _ =>
      (Exit.fatal e, t ++ [Event.devWrite (request it.cmd), Event.devRead 65])
    | Answer.response buf d2 =>
      match it.line buf with
      | Exit.ok l =>
        report h rest d2
          (t ++ [Event.devWrite (request it.cmd), Event.devRead 65, Event.stdout l])
      | Exit.fatal e =>
        (Exit.fatal e, t ++ [Event.devWrite (request it.cmd), Event.devRead 65])
      | Exit.panic e =>
        (Exit.panic e, t ++ [Event.devWrite (request it.cmd), Event.devRead 65])

/-- The lines of the items `its` when the device, from state `d`, answers
each of their exchanges in turn and every line can be decoded, with the device
state reached; `none` as soon as an exchange or a decoding fails. -/
def answered {σ : Type} (h : HidDevice σ) : σ → List Item → Option (List (List Byte) × σ)
  | d, [] => some ([], d)
  | d, it :: rest =>
    match exchange h d it.cmd with
    | Answer.response buf d2 =>
      match it.line buf with
      | Exit.ok l =>
        match answered h d2 rest with
        | some (ls, d3) => some (l :: ls, d3)
        | none => none
      | _ => none
    | _ => none

/-- The events of a stretch of completed items with their lines: for each
item the write of its request, the read, and the line. -/
def stretch : List Item → List (List Byte) → List Event
  | it :: its, l :: ls =>
    Event.devWrite (request it.cmd) :: Event.devRead 65 :: Event.stdout l :: stretch its ls
  | _, _ => []

/-- The lines printed along a trace, oldest first. -/
def printed : List Event → List (List Byte)
  | [] => []
  | Event.stdout text :: es => text :: printed es
  | _ :: es => printed es

/-- The number of calls of `Close` along a trace. -/
def closes : List Event → Nat
  | [] => 0
  | Event.devClose :: es => closes es + 1
  | _ :: es => closes es

/-- The text on the standard output along a trace: the texts of the `Printf`
calls, one after the other. -/
def stdoutText : List Event → List Byte
  | [] => []
  | Event.stdout text :: es => text ++ stdoutText es
  | _ :: es => stdoutText es

/-- The lines of a text: it is cut after each line feed (byte 10), the line
feeds are left out, and text after the last line feed counts as a last
line. -/
def textLines : List Byte → List (List Byte)
  | [] => []
  | b :: bs =>
    if b = 10 then [] :: textLines bs
    else
      match textLines bs with
      | [] => [[b]]
      | l :: ls => (b :: l) :: ls

/-- A report line as `main` prints it, without its line feed. -/
def lineBody (label : String) (value : List Byte) (unit : String) : List Byte :=
  List.replicate (12 - (label.length + 1)) 32 ++ ascii label ++ ascii ":" ++ ascii " "
    ++ value ++ ascii unit

/-- The identity string that `Query` decodes when the device in state `dev`
answers the identity request has no line feed. -/
def identityOnOneLine {σ : Type} (h : HidDevice σ) (dev : σ) : Prop :=
  ∀ (buf : List Byte) (d1 : σ) (s : List Byte),
    exchange h dev FCD_HID_CMD_QUERY = Answer.response buf d1 →
    decodeQuery buf = Exit.ok s → (10 : Byte) ∉ s

/-- Eight responses that the device answers and `Query` decodes, with a line
feed inside the identity string. -/
def twoLineIdentity : List (List Byte) :=
  [[1, 1, 65, 10, 66], [102, 1, 0x10, 0x27, 0, 0], [150, 1, 1], [153, 1, 7],
   [154, 1, 0], [157, 1, 20], [162, 1, 200], [157, 1, 20]]

/-! ## A concrete device for the examples -/

/-- A device that accepts every write and answers the reads from a list of
prepared responses, failing once the list is used up. -/
def scripted : HidDevice (List (List Byte)) where
  Write := fun d b => (Except.ok b.length, d)
  Read := fun d _ =>
    match d with
    | [] => (Except.error "no more data", [])
    | r :: rs => (Except.ok r, rs)
  Close := fun d => d

/-- A session on the scripted device whose buffer still holds 65 copies of
`stale` from an earlier exchange. -/
def start (rs : List (List Byte)) (stale : Byte) : Proc (List (List Byte)) :=
  { fcdpp := { dev := rs, buf := List.replicate 65 stale }, trace := [] }

/-- A full 65-byte response: `body` followed by zero bytes. -/
def padded (body : List Byte) : List Byte :=
  body ++ List.replicate (65 - body.length) 0

/-- A host on which the enumeration finds `n` devices, each of which opens
into the scripted device with the responses `rs`. -/
def scriptedHost (n : Nat) (rs : List (List Byte)) : HidHost Unit (List (List Byte)) where
  Enumerate := fun _ _ => List.replicate n ()
  Open := fun _ => Except.ok rs

/-- What a staged device does with one exchange: it refuses the write, or it
accepts the write and fails the read, or it answers the read with `data`. -/
inductive Reply where
  | noWrite
  | noRead
  | data (r : List Byte)

/-- A device that goes through a list of replies, one for each exchange, and
refuses every write once the list is used up. -/
def staged : HidDevice (List Reply) where
  Write := fun d b =>
    match d with
    | [] => (Except.error "device gone", [])
    | Reply.noWrite :: rs => (Except.error "write failed", rs)
    | _ => (Except.ok b.length, d)
  Read := fun d _ =>
    match d with
    | Reply.data r :: rs => (Except.ok r, rs)
    | _ :: rs => (Except.error "read failed", rs)
    | [] => (Except.error "device gone", [])
  Close := fun d => d

/-- A host on which the enumeration finds `n` devices, each of which opens
into the staged device with the replies `rs`. -/
def stagedHost (n : Nat) (rs : List Reply) : HidHost Unit (List Reply) where
  Enumerate := fun _ _ => List.replicate n ()
  Open := fun _ => Except.ok rs

/-- A host with one device that cannot be opened. -/
def lockedHost : HidHost Unit (List Reply) where
  Enumerate := fun _ _ => [()]
  Open := fun _ => Except.error "access denied"

/-- Eight well-formed responses, one for each exchange of `main`. -/
def goodResponses : List (List Byte) :=
  [1 :: 1 :: ascii "FCDAPP 1.0", [102, 1, 0x10, 0x27, 0, 0], [150, 1, 1], [153, 1, 7],
   [154, 1, 0], [157, 1, 20], [162, 1, 200], [157, 1, 20]]

/-! ## Lemmas on the building blocks -/

set_option maxRecDepth 100000

theorem foldl_set_zero (buf : List Byte) (n : Nat) (hn : n ≤ buf.length) :
    (List.range n).foldl (fun b i => b.set i 0) buf = List.replicate n 0 ++ buf.drop n := by
  induction n with
  | zero => simp
  | succ k ih =>
    rw [List.range_succ, List.foldl_append, ih (by omega)]
    simp only [List.foldl_cons, List.foldl_nil]
    apply List.ext_getElem
    · simp; omega
    · intro i h1 h2
      simp only [List.getElem_set, List.getElem_append, List.length_replicate,
        List.getElem_replicate, List.getElem_drop]
      by_cases hik : k = i
      · subst hik; simp
      · by_cases hlt : i < k
        · simp [hik, hlt, show i < k + 1 by omega]
        · have h3 : ¬ i < k + 1 := by omega
          simp only [hik, hlt, h3, if_false, dite_false]
          congr 1; omega

theorem clearBuf_run {σ : Type} (p : Proc σ) :
    FCDPP.clearBuf p = (Exit.ok (), { p with fcdpp := { p.fcdpp with
      buf := List.replicate p.fcdpp.buf.length 0 } }) := by
  unfold FCDPP.clearBuf
  rw [foldl_set_zero _ _ (Nat.le_refl _)]
  simp

/-- The buffer made by `NewFCDPP` has the length the statements below ask for. -/
theorem NewFCDPP_buf_length {σ : Type} (dev : σ) : (NewFCDPP dev).buf.length = 65 := by
  simp [NewFCDPP]

theorem readInto_length (buf data : List Byte) :
    (readInto buf data).length = buf.length := by
  simp [readInto]; omega

theorem request_length (cmd : Byte) : (request cmd).length = 65 := by simp [request]

theorem response_length (cmd : Byte) (data : List Byte) :
    (readInto (request cmd) data).length = 65 := by
  rw [readInto_length, request_length]

theorem response_getElem? (cmd : Byte) (data : List Byte) (i : Nat) (hi : i < 65) :
    ∃ b, (readInto (request cmd) data)[i]? = some b :=
  ⟨_, List.getElem?_eq_getElem (by rw [response_length]; exact hi)⟩

/-- The three statements every accessor starts with, run from a 65-byte
buffer: what reaches the device and where the rest `k` of the body starts. -/
theorem prelude_run {σ α : Type} (h : HidDevice σ) (cmd : Byte) (k : Unit → Run σ α)
    (p : Proc σ) (hlen : p.fcdpp.buf.length = 65) :
    (FCDPP.clearBuf >>= fun _ => setBuf 1 cmd >>= fun _ => FCDPP.writeRead h >>= k) p =
      match h.Write p.fcdpp.dev (request cmd) with
      | (Except.error e, d1) =>
        (Exit.fatal e, { fcdpp := { dev := d1, buf := request cmd },
                         trace := p.trace ++ [Event.devWrite (request cmd)] })
      | (Except.ok _, d1) =>
        match h.Read d1 65 with
        | (Except.error e, d2) =>
          (Exit.fatal e, { fcdpp := { dev := d2, buf := request cmd },
                           trace := p.trace ++ [Event.devWrite (request cmd), Event.devRead 65] })
        | (Except.ok data, d2) =>
          k () { fcdpp := { dev := d2, buf := readInto (request cmd) data },
                 trace := p.trace ++ [Event.devWrite (request cmd), Event.devRead 65] } := by
  have hreq : (List.replicate 65 (0 : Byte)).set 1 cmd = request cmd := by
    simp [request, List.replicate]
  have hl : (request cmd).length = 65 := by simp [request]
  simp only [bind, clearBuf_run, hlen, setBuf, List.length_replicate, FCDPP.writeRead]
  simp only [show (1 < 65) = True by simp, if_true, hreq, hl]
  rcases hW : h.Write p.fcdpp.dev (request cmd) with ⟨r, d1⟩
  cases r with
  | error e => simp
  | ok n =>
    simp only
    rcases hR : h.Read d1 65 with ⟨r2, d2⟩
    cases r2 with
    | error e => simp
    | ok data => simp

/-- The prelude when the device accepts the write and answers the read. -/
theorem prelude_ok {σ α : Type} (h : HidDevice σ) (cmd : Byte) (k : Unit → Run σ α)
    (p : Proc σ) (n : Nat) (d1 d2 : σ) (data : List Byte)
    (hlen : p.fcdpp.buf.length = 65)
    (hw : h.Write p.fcdpp.dev (request cmd) = (Except.ok n, d1))
    (hr : h.Read d1 65 = (Except.ok data, d2)) :
    (FCDPP.clearBuf >>= fun _ => setBuf 1 cmd >>= fun _ => FCDPP.writeRead h >>= k) p =
      k () { fcdpp := { dev := d2, buf := readInto (request cmd) data },
             trace := p.trace ++ [Event.devWrite (request cmd), Event.devRead 65] } := by
  rw [prelude_run h cmd k p hlen, hw]
  simp only [hr]

theorem writes_append (xs ys : List Event) : writes (xs ++ ys) = writes xs ++ writes ys := by
  induction xs with
  | nil => rfl
  | cons e es ih => cases e <;> simp [writes, ih]

theorem or_shift_bytes (a b c d : Nat) (ha : a < 256) (hb : b < 256) (hc : c < 256)
    (hd : d < 256) :
    uint32 (uint32 (uint32 (uint32 a ||| uint32 (uint32 b <<< 8)) |||
        uint32 (uint32 c <<< 16)) ||| uint32 (uint32 d <<< 24))
      = a + 2 ^ 8 * b + 2 ^ 16 * c + 2 ^ 24 * d := by
  have e1 : a ||| b <<< 8 = a + 2 ^ 8 * b := by
    rw [Nat.shiftLeft_eq, Nat.mul_comm b, Nat.lor_comm, ← Nat.mul_add_lt_is_or (by omega)]
    omega
  have e2 : (a + 2 ^ 8 * b) ||| c <<< 16 = a + 2 ^ 8 * b + 2 ^ 16 * c := by
    rw [Nat.shiftLeft_eq, Nat.mul_comm c, Nat.lor_comm, ← Nat.mul_add_lt_is_or (by omega)]
    omega
  have e3 : (a + 2 ^ 8 * b + 2 ^ 16 * c) ||| d <<< 24
      = a + 2 ^ 8 * b + 2 ^ 16 * c + 2 ^ 24 * d := by
    rw [Nat.shiftLeft_eq, Nat.mul_comm d, Nat.lor_comm, ← Nat.mul_add_lt_is_or (by omega)]
    omega
  have m1 : uint32 a = a := Nat.mod_eq_of_lt (by omega)
  have m2 : uint32 b = b := Nat.mod_eq_of_lt (by omega)
  have m3 : uint32 c = c := Nat.mod_eq_of_lt (by omega)
  have m4 : uint32 d = d := Nat.mod_eq_of_lt (by omega)
  have s1 : uint32 (b <<< 8) = b <<< 8 := by
    rw [Nat.shiftLeft_eq]; exact Nat.mod_eq_of_lt (by omega)
  have s2 : uint32 (c <<< 16) = c <<< 16 := by
    rw [Nat.shiftLeft_eq]; exact Nat.mod_eq_of_lt (by omega)
  have s3 : uint32 (d <<< 24) = d <<< 24 := by
    rw [Nat.shiftLeft_eq]; exact Nat.mod_eq_of_lt (by omega)
  rw [m1, m2, m3, m4, s1, s2, s3, e1]
  rw [show uint32 (a + 2 ^ 8 * b) = a + 2 ^ 8 * b from Nat.mod_eq_of_lt (by omega), e2]
  rw [show uint32 (a + 2 ^ 8 * b + 2 ^ 16 * c) = a + 2 ^ 8 * b + 2 ^ 16 * c from
    Nat.mod_eq_of_lt (by omega), e3]
  exact Nat.mod_eq_of_lt (by omega)

theorem IndexByte_append (s rest : List Byte) (c : Byte) (hs : ∀ b ∈ s, b ≠ c) :
    IndexByte (s ++ c :: rest) c = (s.length : Int) := by
  induction s with
  | nil => simp [IndexByte]
  | cons x xs ih =>
    have hx : x ≠ c := hs x (List.mem_cons_self x xs)
    have ih2 := ih (fun b hb => hs b (List.mem_cons_of_mem x hb))
    have hpos : ¬ ((xs.length : Int) < 0) := by omega
    simp only [List.cons_append, IndexByte, hx, if_false, List.append_eq]
    rw [ih2]
    simp only [hpos, if_false, List.length_cons, Nat.cast_add, Nat.cast_one]

theorem RFFilter_String_unknown (b : Byte) (hb : 11 ≤ b.val) :
    RFFilter.String ⟨b⟩ = "unknown RF filter" := by
  have hne : ∀ k : Byte, k.val < 11 → (RFFilter.mk b = RFFilter.mk k) = False := by
    intro k hk
    simp only [RFFilter.mk.injEq, eq_iff_iff, iff_false]
    intro hbk
    rw [hbk] at hb
    omega
  simp only [RFFilter.String, TRFE_0_4, TRFE_4_8, TRFE_8_16, TRFE_16_32, TRFE_32_75,
    TRFE_75_125, TRFE_125_250, TRFE_145, TRFE_410_875, TRFE_435, TRFE_875_2000]
  simp only [hne 0 (by decide), hne 1 (by decide), hne 2 (by decide), hne 3 (by decide),
    hne 4 (by decide), hne 5 (by decide), hne 6 (by decide), hne 7 (by decide),
    hne 8 (by decide), hne 9 (by decide), hne 10 (by decide), if_false]

theorem IFFilter_String_unknown (b : Byte) (hb : 8 ≤ b.val) :
    IFFilter.String ⟨b⟩ = "unknown IF filter" := by
  have hne : ∀ k : Byte, k.val < 8 → (IFFilter.mk b = IFFilter.mk k) = False := by
    intro k hk
    simp only [IFFilter.mk.injEq, eq_iff_iff, iff_false]
    intro hbk
    rw [hbk] at hb
    omega
  simp only [IFFilter.String, TIFE_200KHZ, TIFE_300KHZ, TIFE_600KHZ, TIFE_1536KHZ,
    TIFE_5MHZ, TIFE_6MHZ, TIFE_7MHZ, TIFE_8MHZ]
  simp only [hne 0 (by decide), hne 1 (by decide), hne 2 (by decide), hne 3 (by decide),
    hne 4 (by decide), hne 5 (by decide), hne 6 (by decide), hne 7 (by decide), if_false]

theorem rfConstants_mem (b : Byte) : RFFilter.mk b ∈ rfConstants ↔ b.val < 11 := by
  simp only [rfConstants, TRFE_0_4, TRFE_4_8, TRFE_8_16, TRFE_16_32, TRFE_32_75,
    TRFE_75_125, TRFE_125_250, TRFE_145, TRFE_410_875, TRFE_435, TRFE_875_2000,
    List.mem_cons, RFFilter.mk.injEq, List.mem_singleton, List.mem_nil_iff, or_false,
    Fin.ext_iff]
  have e0 : ((0 : Byte) : Nat) = 0 := rfl
  have e1 : ((1 : Byte) : Nat) = 1 := rfl
  have e2 : ((2 : Byte) : Nat) = 2 := rfl
  have e3 : ((3 : Byte) : Nat) = 3 := rfl
  have e4 : ((4 : Byte) : Nat) = 4 := rfl
  have e5 : ((5 : Byte) : Nat) = 5 := rfl
  have e6 : ((6 : Byte) : Nat) = 6 := rfl
  have e7 : ((7 : Byte) : Nat) = 7 := rfl
  have e8 : ((8 : Byte) : Nat) = 8 := rfl
  have e9 : ((9 : Byte) : Nat) = 9 := rfl
  have e10 : ((10 : Byte) : Nat) = 10 := rfl
  rw [e0, e1, e2, e3, e4, e5, e6, e7, e8, e9, e10]
  omega

theorem ifConstants_mem (b : Byte) : IFFilter.mk b ∈ ifConstants ↔ b.val < 8 := by
  simp only [ifConstants, TIFE_200KHZ, TIFE_300KHZ, TIFE_600KHZ, TIFE_1536KHZ,
    TIFE_5MHZ, TIFE_6MHZ, TIFE_7MHZ, TIFE_8MHZ,
    List.mem_cons, IFFilter.mk.injEq, List.mem_singleton, List.mem_nil_iff, or_false,
    Fin.ext_iff]
  have e0 : ((0 : Byte) : Nat) = 0 := rfl
  have e1 : ((1 : Byte) : Nat) = 1 := rfl
  have e2 : ((2 : Byte) : Nat) = 2 := rfl
  have e3 : ((3 : Byte) : Nat) = 3 := rfl
  have e4 : ((4 : Byte) : Nat) = 4 := rfl
  have e5 : ((5 : Byte) : Nat) = 5 := rfl
  have e6 : ((6 : Byte) : Nat) = 6 := rfl
  have e7 : ((7 : Byte) : Nat) = 7 := rfl
  rw [e0, e1, e2, e3, e4, e5, e6, e7]
  omega

theorem RFFilter_String_known (b : Byte) (hb : b.val < 11) :
    RFFilter.String ⟨b⟩ ≠ "unknown RF filter" := by
  obtain ⟨v, hv⟩ := b
  simp only at hb
  interval_cases v <;> revert hv <;> decide

theorem IFFilter_String_known (b : Byte) (hb : b.val < 8) :
    IFFilter.String ⟨b⟩ ≠ "unknown IF filter" := by
  obtain ⟨v, hv⟩ := b
  simp only at hb
  interval_cases v <;> revert hv <;> decide

theorem RFFilter_String_unknown_iff (f : RFFilter) :
    f.String = "unknown RF filter" ↔ f ∉ rfConstants := by
  obtain ⟨b⟩ := f
  rw [rfConstants_mem]
  constructor
  · intro hs hlt
    exact RFFilter_String_known b hlt hs
  · intro hge
    exact RFFilter_String_unknown b (by omega)

theorem IFFilter_String_unknown_iff (f : IFFilter) :
    f.String = "unknown IF filter" ↔ f ∉ ifConstants := by
  obtain ⟨b⟩ := f
  rw [ifConstants_mem]
  constructor
  · intro hs hlt
    exact IFFilter_String_known b hlt hs
  · intro hge
    exact IFFilter_String_unknown b (by omega)

/-- The requests written by an accessor whose body after the prelude leaves
the trace alone, whatever the device does. -/
theorem prelude_writes {σ α : Type} (h : HidDevice σ) (cmd : Byte) (k : Unit → Run σ α)
    (p : Proc σ) (hlen : p.fcdpp.buf.length = 65)
    (hk : ∀ q : Proc σ, (k () q).2.trace = q.trace) :
    writes ((FCDPP.clearBuf >>= fun _ => setBuf 1 cmd >>= fun _ => FCDPP.writeRead h >>= k) p).2.trace
      = writes p.trace ++ [request cmd] := by
  rw [prelude_run h cmd k p hlen]
  rcases h.Write p.fcdpp.dev (request cmd) with ⟨r, d1⟩
  cases r with
  | error e => simp [writes_append, writes]
  | ok n =>
    simp only
    rcases h.Read d1 65 with ⟨r2, d2⟩
    cases r2 with
    | error e => simp [writes_append, writes]
    | ok data => simp [hk, writes_append, writes]

theorem bind_getBuf_trace {σ α : Type} (i : Nat) (f : Byte → Run σ α)
    (hf : ∀ (b : Byte) (q : Proc σ), (f b q).2.trace = q.trace) (q : Proc σ) :
    ((getBuf i >>= f) q).2.trace = q.trace := by
  simp only [bind, getBuf]
  cases q.fcdpp.buf[i]? with
  | none => rfl
  | some b => exact hf b q

theorem Query_writes {σ : Type} (h : HidDevice σ) (p : Proc σ)
    (hlen : p.fcdpp.buf.length = 65) :
    writes (FCDPP.Query h p).2.trace = writes p.trace ++ [request FCD_HID_CMD_QUERY] := by
  unfold FCDPP.Query
  apply prelude_writes h _ _ p hlen
  intro q
  simp only [bind, theBuf, sliceBuf]
  split <;> rfl

theorem Frequency_writes {σ : Type} (h : HidDevice σ) (p : Proc σ)
    (hlen : p.fcdpp.buf.length = 65) :
    writes (FCDPP.Frequency h p).2.trace = writes p.trace ++ [request FCD_HID_CMD_GET_FREQUENCY_HZ] := by
  unfold FCDPP.Frequency
  apply prelude_writes h _ _ p hlen
  intro q
  repeat' first
    | rfl
    | (refine bind_getBuf_trace _ _ ?_ _; intro _ _)

theorem LNAGain_writes {σ : Type} (h : HidDevice σ) (p : Proc σ)
    (hlen : p.fcdpp.buf.length = 65) :
    writes (FCDPP.LNAGain h p).2.trace = writes p.trace ++ [request FCD_HID_CMD_GET_LNA_GAIN] := by
  unfold FCDPP.LNAGain
  apply prelude_writes h _ _ p hlen
  intro q
  repeat' first
    | rfl
    | (refine bind_getBuf_trace _ _ ?_ _; intro _ _)
    | split

theorem RFFilter_writes {σ : Type} (h : HidDevice σ) (p : Proc σ)
    (hlen : p.fcdpp.buf.length = 65) :
    writes (FCDPP.RFFilter h p).2.trace = writes p.trace ++ [request FCD_HID_CMD_GET_RF_FILTER] := by
  unfold FCDPP.RFFilter
  apply prelude_writes h _ _ p hlen
  intro q
  repeat' first
    | rfl
    | (refine bind_getBuf_trace _ _ ?_ _; intro _ _)

theorem MixerGain_writes {σ : Type} (h : HidDevice σ) (p : Proc σ)
    (hlen : p.fcdpp.buf.length = 65) :
    writes (FCDPP.MixerGain h p).2.trace = writes p.trace ++ [request FCD_HID_CMD_GET_MIXER_GAIN] := by
  unfold FCDPP.MixerGain
  apply prelude_writes h _ _ p hlen
  intro q
  repeat' first
    | rfl
    | (refine bind_getBuf_trace _ _ ?_ _; intro _ _)
    | split

theorem IFGain_writes {σ : Type} (h : HidDevice σ) (p : Proc σ)
    (hlen : p.fcdpp.buf.length = 65) :
    writes (FCDPP.IFGain h p).2.trace = writes p.trace ++ [request FCD_HID_CMD_GET_IF_GAIN] := by
  unfold FCDPP.IFGain
  apply prelude_writes h _ _ p hlen
  intro q
  repeat' first
    | rfl
    | (refine bind_getBuf_trace _ _ ?_ _; intro _ _)

theorem IFFilter_writes {σ : Type} (h : HidDevice σ) (p : Proc σ)
    (hlen : p.fcdpp.buf.length = 65) :
    writes (FCDPP.IFFilter h p).2.trace = writes p.trace ++ [request FCD_HID_CMD_GET_IF_FILTER] := by
  unfold FCDPP.IFFilter
  apply prelude_writes h _ _ p hlen
  intro q
  repeat' first
    | rfl
    | (refine bind_getBuf_trace _ _ ?_ _; intro _ _)

theorem BiasTee_writes {σ : Type} (h : HidDevice σ) (p : Proc σ)
    (hlen : p.fcdpp.buf.length = 65) :
    writes (FCDPP.BiasTee h p).2.trace = writes p.trace ++ [request FCD_HID_CMD_GET_IF_GAIN] := by
  unfold FCDPP.BiasTee
  apply prelude_writes h _ _ p hlen
  intro q
  repeat' first
    | rfl
    | (refine bind_getBuf_trace _ _ ?_ _; intro _ _)
    | split

/-! ## Lemmas on the accessors as exchanges -/

theorem IndexByte_lt_length (b : List Byte) (c : Byte) : IndexByte b c < (b.length : Int) := by
  induction b with
  | nil => simp [IndexByte]
  | cons x xs ih =>
    simp only [IndexByte, List.length_cons, Nat.cast_add, Nat.cast_one]
    split
    · omega
    · split <;> omega

theorem IndexByte_ge (b : List Byte) (c : Byte) : -1 ≤ IndexByte b c := by
  induction b with
  | nil => simp [IndexByte]
  | cons x xs ih =>
    simp only [IndexByte]
    split
    · omega
    · split <;> omega

/-- A non-negative result of `IndexByte` is the length of the part of the
slice before the first `c`. -/
theorem IndexByte_split (b : List Byte) (c : Byte) (hn : 0 ≤ IndexByte b c) :
    ∃ pre rest : List Byte, b = pre ++ c :: rest ∧ (∀ x ∈ pre, x ≠ c) ∧
      IndexByte b c = (pre.length : Int) := by
  induction b with
  | nil => simp [IndexByte] at hn
  | cons x xs ih =>
    by_cases hx : x = c
    · subst hx
      exact ⟨[], xs, rfl, by simp, by simp [IndexByte]⟩
    · have hrec : IndexByte (x :: xs) c
          = if IndexByte xs c < 0 then -1 else IndexByte xs c + 1 := by
        simp [IndexByte, hx]
      by_cases hneg : IndexByte xs c < 0
      · rw [hrec, if_pos hneg] at hn
        omega
      · obtain ⟨pre, rest, hb, hpre, hidx⟩ := ih (by omega)
        refine ⟨x :: pre, rest, by rw [hb]; rfl, ?_, ?_⟩
        · intro y hy
          rcases List.mem_cons.mp hy with rfl | hy
          · exact hx
          · exact hpre y hy
        · rw [hrec, if_neg hneg, hidx]
          simp

/-- The result of `IndexByte` is negative exactly when `c` does not occur. -/
theorem IndexByte_neg_iff (b : List Byte) (c : Byte) : IndexByte b c < 0 ↔ c ∉ b := by
  induction b with
  | nil => simp [IndexByte]
  | cons x xs ih =>
    by_cases hx : x = c
    · subst hx
      simp [IndexByte]
    · have hrec : IndexByte (x :: xs) c
          = if IndexByte xs c < 0 then -1 else IndexByte xs c + 1 := by
        simp [IndexByte, hx]
      have hge := IndexByte_ge xs c
      have hcx : ¬ c = x := fun hc => hx hc.symm
      rw [hrec, List.mem_cons, not_or, ← ih]
      by_cases hneg : IndexByte xs c < 0
      · simp [hneg, hcx]
      · simp only [hneg, if_false, hcx, not_false_eq_true, true_and, iff_false]
        omega

theorem getElem?_eq_getD (buf : List Byte) (i : Nat) (hi : i < buf.length) :
    buf[i]? = some (buf.getD i 0) := by
  rw [List.getD_eq_getElem?_getD, List.getElem?_eq_getElem hi]
  rfl

theorem exchange_response_length {σ : Type} (h : HidDevice σ) (d d2 : σ) (cmd : Byte)
    (buf : List Byte) (hx : exchange h d cmd = Answer.response buf d2) : buf.length = 65 := by
  revert hx
  unfold exchange
  rcases h.Write d (request cmd) with ⟨r, d1⟩
  cases r with
  | error e => intro hx; cases hx
  | ok n =>
    simp only
    rcases h.Read d1 65 with ⟨r2, d3⟩
    cases r2 with
    | error e => intro hx; cases hx
    | ok data =>
      intro hx
      simp only [Answer.response.injEq] at hx
      rw [← hx.1]
      exact response_length cmd data

/-- An accessor made of the common prelude and of a decoding `k` that only
looks at the buffer is the exchange followed by that decoding. -/
theorem prelude_accessorRun {σ α : Type} (h : HidDevice σ) (cmd : Byte) (k : Unit → Run σ α)
    (dec : List Byte → Exit α) (p : Proc σ) (hlen : p.fcdpp.buf.length = 65)
    (hk : ∀ q : Proc σ, q.fcdpp.buf.length = 65 → k () q = (dec q.fcdpp.buf, q)) :
    (FCDPP.clearBuf >>= fun _ => setBuf 1 cmd >>= fun _ => FCDPP.writeRead h >>= k) p
      = accessorRun h cmd dec p := by
  rw [prelude_run h cmd k p hlen]
  unfold accessorRun exchange
  rcases h.Write p.fcdpp.dev (request cmd) with ⟨r, d1⟩
  cases r with
  | error e => rfl
  | ok n =>
    simp only
    rcases h.Read d1 65 with ⟨r2, d2⟩
    cases r2 with
    | error e => rfl
    | ok data =>
      simp only
      rw [hk _ (response_length cmd data)]

theorem getBuf_run {σ : Type} (i : Nat) (q : Proc σ) (hi : i < q.fcdpp.buf.length) :
    getBuf i q = (Exit.ok (q.fcdpp.buf.getD i 0), q) := by
  unfold getBuf
  rw [getElem?_eq_getD _ _ hi]

theorem Query_run {σ : Type} (h : HidDevice σ) (p : Proc σ)
    (hlen : p.fcdpp.buf.length = 65) :
    FCDPP.Query h p = accessorRun h FCD_HID_CMD_QUERY decodeQuery p := by
  unfold FCDPP.Query
  apply prelude_accessorRun h _ _ _ p hlen
  intro q _
  have hlt := IndexByte_lt_length q.fcdpp.buf 0
  simp only [bind, theBuf, sliceBuf, decodeQuery]
  by_cases h2 : 2 ≤ IndexByte q.fcdpp.buf 0
  · rw [if_pos ⟨by omega, h2, by omega⟩, if_pos h2]
    rfl
  · rw [if_neg (fun hc => h2 hc.2.1), if_neg h2]

theorem Frequency_run {σ : Type} (h : HidDevice σ) (p : Proc σ)
    (hlen : p.fcdpp.buf.length = 65) :
    FCDPP.Frequency h p
      = accessorRun h FCD_HID_CMD_GET_FREQUENCY_HZ (fun buf => Exit.ok (decodeFrequency buf)) p := by
  unfold FCDPP.Frequency
  apply prelude_accessorRun h _ _ _ p hlen
  intro q hq
  simp only [bind, pure, getBuf_run 2 q (by omega), getBuf_run 3 q (by omega),
    getBuf_run 4 q (by omega), getBuf_run 5 q (by omega)]
  rw [or_shift_bytes _ _ _ _ (q.fcdpp.buf.getD 2 0).isLt (q.fcdpp.buf.getD 3 0).isLt
    (q.fcdpp.buf.getD 4 0).isLt (q.fcdpp.buf.getD 5 0).isLt]
  rfl

theorem LNAGain_run {σ : Type} (h : HidDevice σ) (p : Proc σ)
    (hlen : p.fcdpp.buf.length = 65) :
    FCDPP.LNAGain h p
      = accessorRun h FCD_HID_CMD_GET_LNA_GAIN (fun buf => Exit.ok (decodeBool buf)) p := by
  unfold FCDPP.LNAGain
  apply prelude_accessorRun h _ _ _ p hlen
  intro q hq
  simp only [bind, pure, getBuf_run 2 q (by omega), decodeBool]
  generalize q.fcdpp.buf.getD 2 0 = b
  by_cases hb : b = 1 <;> simp [hb]

theorem RFFilter_run {σ : Type} (h : HidDevice σ) (p : Proc σ)
    (hlen : p.fcdpp.buf.length = 65) :
    FCDPP.RFFilter h p
      = accessorRun h FCD_HID_CMD_GET_RF_FILTER
          (fun buf => Exit.ok (RFFilter.mk (buf.getD 2 0))) p := by
  unfold FCDPP.RFFilter
  apply prelude_accessorRun h _ _ _ p hlen
  intro q hq
  simp only [bind, pure, getBuf_run 2 q (by omega)]

theorem MixerGain_run {σ : Type} (h : HidDevice σ) (p : Proc σ)
    (hlen : p.fcdpp.buf.length = 65) :
    FCDPP.MixerGain h p
      = accessorRun h FCD_HID_CMD_GET_MIXER_GAIN (fun buf => Exit.ok (decodeBool buf)) p := by
  unfold FCDPP.MixerGain
  apply prelude_accessorRun h _ _ _ p hlen
  intro q hq
  simp only [bind, pure, getBuf_run 2 q (by omega), decodeBool]
  generalize q.fcdpp.buf.getD 2 0 = b
  by_cases hb : b = 1 <;> simp [hb]

theorem IFGain_run {σ : Type} (h : HidDevice σ) (p : Proc σ)
    (hlen : p.fcdpp.buf.length = 65) :
    FCDPP.IFGain h p
      = accessorRun h FCD_HID_CMD_GET_IF_GAIN (fun buf => Exit.ok (buf.getD 2 0)) p := by
  unfold FCDPP.IFGain
  apply prelude_accessorRun h _ _ _ p hlen
  intro q hq
  simp only [bind, pure, getBuf_run 2 q (by omega)]

theorem IFFilter_run {σ : Type} (h : HidDevice σ) (p : Proc σ)
    (hlen : p.fcdpp.buf.length = 65) :
    FCDPP.IFFilter h p
      = accessorRun h FCD_HID_CMD_GET_IF_FILTER
          (fun buf => Exit.ok (IFFilter.mk (buf.getD 2 0))) p := by
  unfold FCDPP.IFFilter
  apply prelude_accessorRun h _ _ _ p hlen
  intro q hq
  simp only [bind, pure, getBuf_run 2 q (by omega)]

theorem BiasTee_run {σ : Type} (h : HidDevice σ) (p : Proc σ)
    (hlen : p.fcdpp.buf.length = 65) :
    FCDPP.BiasTee h p
      = accessorRun h FCD_HID_CMD_GET_IF_GAIN (fun buf => Exit.ok (decodeBool buf)) p := by
  unfold FCDPP.BiasTee
  apply prelude_accessorRun h _ _ _ p hlen
  intro q hq
  simp only [bind, pure, getBuf_run 2 q (by omega), decodeBool]
  generalize q.fcdpp.buf.getD 2 0 = b
  by_cases hb : b = 1 <;> simp [hb]

/-! ## Lemmas on `main` -/

theorem lineAsPrinted_eq (label : String) (value : List Byte) (unit : String) :
    lineAsPrinted label value unit
      = (List.replicate (12 - (label.length + 1)) 32 ++ ascii label ++ ascii ":" ++ ascii " ")
          ++ (value ++ (ascii unit ++ ascii "\n")) := by
  simp [lineAsPrinted, List.append_assoc]

theorem line_eq (a1 label : String) (v : List Byte) (unit : String) (tl : List Byte)
    (hpre : formatS12 a1 ++ [32]
      = List.replicate (12 - (label.length + 1)) 32 ++ ascii label ++ ascii ":" ++ ascii " ")
    (htl : tl = ascii unit ++ ascii "\n") :
    formatS12 a1 ++ (32 :: (v ++ tl)) = lineAsPrinted label v unit := by
  subst htl
  rw [lineAsPrinted_eq, ← hpre]
  simp

theorem Sprintf_plain (a1 : String) (a2 : Value) :
    Sprintf "%12s %v\n".toList a1 a2 = formatS12 a1 ++ (32 :: (formatV a2 ++ [10])) := rfl

theorem Sprintf_Hz (a1 : String) (a2 : Value) :
    Sprintf "%12s %v Hz\n".toList a1 a2
      = formatS12 a1 ++ (32 :: (formatV a2 ++ ascii " Hz\n")) := rfl

theorem Sprintf_dB (a1 : String) (a2 : Value) :
    Sprintf "%12s %v dB\n".toList a1 a2
      = formatS12 a1 ++ (32 :: (formatV a2 ++ ascii " dB\n")) := rfl

theorem formatV_bool (b : Bool) : formatV (Value.bool b) = ascii (toString b) := by
  cases b <;> rfl

/-- One statement of `main` followed by the rest `K` of the body, against one
item of the report followed by the rest of the items. -/
theorem report_step {σ α : Type} (h : HidDevice σ) (X : Run σ α) (cmd : Byte)
    (dec : List Byte → Exit α) (fmt lab : String) (mk : α → Value) (K : Run σ Unit)
    (it : Item) (rest : List Item)
    (hX : ∀ p : Proc σ, p.fcdpp.buf.length = 65 → X p = accessorRun h cmd dec p)
    (hcmd : it.cmd = cmd)
    (hline : ∀ buf, it.line buf = (dec buf).map (fun v => Sprintf fmt.toList lab (mk v)))
    (hK : ∀ q : Proc σ, q.fcdpp.buf.length = 65 →
      ((K q).1, (K q).2.trace) = report h rest q.fcdpp.dev q.trace)
    (p : Proc σ) (hlen : p.fcdpp.buf.length = 65) :
    (((X >>= fun v => Printf fmt lab (mk v) >>= fun _ => K) p).1,
     ((X >>= fun v => Printf fmt lab (mk v) >>= fun _ => K) p).2.trace)
      = report h (it :: rest) p.fcdpp.dev p.trace := by
  simp only [bind, report, hX p hlen, accessorRun, hcmd]
  cases hx : exchange h p.fcdpp.dev cmd with
  | writeError e d => rfl
  | readError e d => rfl
  | response buf d =>
    have hbuf := exchange_response_length h _ _ _ _ hx
    simp only [hline buf]
    cases dec buf with
    | fatal e => rfl
    | panic e => rfl
    | ok v =>
      have hq := hK { fcdpp := { dev := d, buf := buf },
                      trace := p.trace ++ [Event.devWrite (request cmd), Event.devRead 65] ++
                        [Event.stdout (Sprintf fmt.toList lab (mk v))] } hbuf
      simp only [List.append_assoc, List.cons_append, List.nil_append] at hq
      simp only [Exit.map, Printf, List.append_assoc, List.cons_append, List.nil_append]
      exact hq

/-- The last statement of `main` against the last item of the report. -/
theorem report_last {σ α : Type} (h : HidDevice σ) (X : Run σ α) (cmd : Byte)
    (dec : List Byte → Exit α) (fmt lab : String) (mk : α → Value) (it : Item)
    (hX : ∀ p : Proc σ, p.fcdpp.buf.length = 65 → X p = accessorRun h cmd dec p)
    (hcmd : it.cmd = cmd)
    (hline : ∀ buf, it.line buf = (dec buf).map (fun v => Sprintf fmt.toList lab (mk v)))
    (p : Proc σ) (hlen : p.fcdpp.buf.length = 65) :
    (((X >>= fun v => Printf fmt lab (mk v)) p).1,
     ((X >>= fun v => Printf fmt lab (mk v)) p).2.trace)
      = report h [it] p.fcdpp.dev p.trace := by
  simp only [bind, report, hX p hlen, accessorRun, hcmd]
  cases hx : exchange h p.fcdpp.dev cmd with
  | writeError e d => rfl
  | readError e d => rfl
  | response buf d =>
    simp only [hline buf]
    cases dec buf with
    | fatal e => rfl
    | panic e => rfl
    | ok v =>
      simp [Exit.map, Printf]

/-- The body of `main` is the run of the eight report items. -/
theorem mainBody_report {σ : Type} (h : HidDevice σ) (p : Proc σ)
    (hlen : p.fcdpp.buf.length = 65) :
    ((mainBody h p).1, (mainBody h p).2.trace) = report h reportItems p.fcdpp.dev p.trace := by
  unfold mainBody reportItems
  refine report_step h _ _ decodeQuery _ _ _ _ _ _ (Query_run h) rfl ?_ ?_ p hlen
  · intro buf
    dsimp only
    cases decodeQuery buf <;> simp only [Exit.map]
    rw [Sprintf_plain]
    exact congrArg Exit.ok (line_eq "Query:" "Query" _ "" _ rfl rfl).symm
  intro p hlen
  refine report_step h _ _ _ _ _ _ _ _ _ (Frequency_run h) rfl ?_ ?_ p hlen
  · intro buf
    simp only [Exit.map]
    rw [Sprintf_Hz]
    exact congrArg Exit.ok (line_eq "Freq:" "Freq" _ " Hz" _ rfl rfl).symm
  intro p hlen
  refine report_step h _ _ _ _ _ _ _ _ _ (LNAGain_run h) rfl ?_ ?_ p hlen
  · intro buf
    simp only [Exit.map]
    rw [Sprintf_plain, formatV_bool]
    exact congrArg Exit.ok (line_eq "LNA gain:" "LNA gain" _ "" _ rfl rfl).symm
  intro p hlen
  refine report_step h _ _ _ _ _ _ _ _ _ (RFFilter_run h) rfl ?_ ?_ p hlen
  · intro buf
    simp only [Exit.map]
    rw [Sprintf_plain]
    exact congrArg Exit.ok (line_eq "RF filter:" "RF filter" _ "" _ rfl rfl).symm
  intro p hlen
  refine report_step h _ _ _ _ _ _ _ _ _ (MixerGain_run h) rfl ?_ ?_ p hlen
  · intro buf
    simp only [Exit.map]
    rw [Sprintf_plain, formatV_bool]
    exact congrArg Exit.ok (line_eq "Mixer gain:" "Mixer gain" _ "" _ rfl rfl).symm
  intro p hlen
  refine report_step h _ _ _ _ _ _ _ _ _ (IFGain_run h) rfl ?_ ?_ p hlen
  · intro buf
    simp only [Exit.map]
    rw [Sprintf_dB]
    exact congrArg Exit.ok (line_eq "IF gain:" "IF gain" _ " dB" _ rfl rfl).symm
  intro p hlen
  refine report_step h _ _ _ _ _ _ _ _ _ (IFFilter_run h) rfl ?_ ?_ p hlen
  · intro buf
    simp only [Exit.map]
    rw [Sprintf_plain]
    exact congrArg Exit.ok (line_eq "IF filter:" "IF filter" _ "" _ rfl rfl).symm
  intro p hlen
  refine report_last h _ _ _ _ _ _ _ (BiasTee_run h) rfl ?_ p hlen
  intro buf
  simp only [Exit.map]
  rw [Sprintf_plain, formatV_bool]
  exact congrArg Exit.ok (line_eq "Bias tee:" "Bias tee" _ "" _ rfl rfl).symm

theorem deferClose_eq {σ : Type} (h : HidDevice σ) (r : Exit Unit × Proc σ) :
    deferClose h r =
      match (r.1, r.2.trace) with
      | (Exit.ok _, t) => (Exit.ok (), t ++ [Event.devClose])
      | (Exit.fatal e, t) => (Exit.fatal e, t)
      | (Exit.panic e, t) => (Exit.panic e, t ++ [Event.devClose]) := by
  obtain ⟨r, q⟩ := r
  cases r <;> rfl

theorem main_run {ι σ : Type} (host : HidHost ι σ) (h : HidDevice σ) (info : ι) (dev : σ)
    (henum : host.Enumerate 0x04d8 0xfb31 = [info])
    (hopen : host.Open info = Except.ok dev) :
    main host h =
      match report h reportItems dev [Event.enumerate 0x04d8 0xfb31, Event.devOpen] with
      | (Exit.ok _, t) => (Exit.ok (), t ++ [Event.devClose])
      | (Exit.fatal e, t) => (Exit.fatal e, t)
      | (Exit.panic e, t) => (Exit.panic e, t ++ [Event.devClose]) := by
  have hb : ((mainBody h { fcdpp := NewFCDPP dev,
                           trace := [Event.enumerate 0x04d8 0xfb31, Event.devOpen] }).1,
             (mainBody h { fcdpp := NewFCDPP dev,
                           trace := [Event.enumerate 0x04d8 0xfb31, Event.devOpen] }).2.trace)
      = report h reportItems dev [Event.enumerate 0x04d8 0xfb31, Event.devOpen] :=
    mainBody_report h
      { fcdpp := NewFCDPP dev, trace := [Event.enumerate 0x04d8 0xfb31, Event.devOpen] }
      (NewFCDPP_buf_length dev)
  unfold main
  simp only [henum, List.length_singleton, ne_eq, not_true_eq_false, if_false,
    List.getElem?_cons_zero, hopen, List.singleton_append]
  rw [deferClose_eq, hb]

theorem report_answered {σ : Type} (h : HidDevice σ) (its rest : List Item) :
    ∀ (d d2 : σ) (t : List Event) (ls : List (List Byte)),
      answered h d its = some (ls, d2) →
      report h (its ++ rest) d t = report h rest d2 (t ++ stretch its ls) := by
  induction its with
  | nil =>
    intro d d2 t ls ha
    simp only [answered, Option.some.injEq, Prod.mk.injEq] at ha
    obtain ⟨rfl, rfl⟩ := ha
    simp [stretch]
  | cons it its ih =>
    intro d d2 t ls ha
    simp only [answered] at ha
    simp only [List.cons_append, report, List.append_eq]
    cases hx : exchange h d it.cmd with
    | writeError e d3 => rw [hx] at ha; cases ha
    | readError e d3 => rw [hx] at ha; cases ha
    | response buf d3 =>
      rw [hx] at ha
      simp only at ha ⊢
      cases hl : it.line buf with
      | fatal e => rw [hl] at ha; cases ha
      | panic e => rw [hl] at ha; cases ha
      | ok l =>
        rw [hl] at ha
        simp only at ha ⊢
        cases hr : answered h d3 its with
        | none => rw [hr] at ha; cases ha
        | some r =>
          obtain ⟨ls2, d4⟩ := r
          rw [hr] at ha
          simp only [Option.some.injEq, Prod.mk.injEq] at ha
          obtain ⟨rfl, rfl⟩ := ha
          rw [ih d3 d4 _ ls2 hr]
          simp [stretch]

theorem answered_length {σ : Type} (h : HidDevice σ) (its : List Item) :
    ∀ (d d2 : σ) (ls : List (List Byte)),
      answered h d its = some (ls, d2) → ls.length = its.length := by
  induction its with
  | nil =>
    intro d d2 ls ha
    simp only [answered, Option.some.injEq, Prod.mk.injEq] at ha
    rw [← ha.1]
    rfl
  | cons it its ih =>
    intro d d2 ls ha
    simp only [answered] at ha
    cases hx : exchange h d it.cmd with
    | writeError e d3 => rw [hx] at ha; cases ha
    | readError e d3 => rw [hx] at ha; cases ha
    | response buf d3 =>
      rw [hx] at ha
      simp only at ha
      cases hl : it.line buf with
      | fatal e => rw [hl] at ha; cases ha
      | panic e => rw [hl] at ha; cases ha
      | ok l =>
        rw [hl] at ha
        simp only at ha
        cases hr : answered h d3 its with
        | none => rw [hr] at ha; cases ha
        | some r =>
          obtain ⟨ls2, d4⟩ := r
          rw [hr] at ha
          simp only [Option.some.injEq, Prod.mk.injEq] at ha
          rw [← ha.1, List.length_cons, ih d3 d4 ls2 hr, List.length_cons]

theorem printed_append (xs ys : List Event) : printed (xs ++ ys) = printed xs ++ printed ys := by
  induction xs with
  | nil => rfl
  | cons e es ih => cases e <;> simp [printed, ih]

theorem closes_append (xs ys : List Event) : closes (xs ++ ys) = closes xs + closes ys := by
  induction xs with
  | nil => simp [closes]
  | cons e es ih =>
    cases e <;> simp [closes, ih]
    omega

theorem printed_stretch (its : List Item) :
    ∀ ls : List (List Byte), ls.length = its.length → printed (stretch its ls) = ls := by
  induction its with
  | nil =>
    intro ls hl
    cases ls with
    | nil => rfl
    | cons l ls => simp at hl
  | cons it its ih =>
    intro ls hl
    cases ls with
    | nil => simp at hl
    | cons l ls =>
      simp only [List.length_cons, Nat.add_right_cancel_iff] at hl
      simp [stretch, printed, ih ls hl]

theorem closes_stretch (its : List Item) : ∀ ls : List (List Byte), closes (stretch its ls) = 0 := by
  induction its with
  | nil => intro ls; cases ls <;> rfl
  | cons it its ih =>
    intro ls
    cases ls with
    | nil => rfl
    | cons l ls => simp [stretch, closes, ih ls]

/-- The run of `main` when the device answers all eight exchanges and every
line can be decoded. -/
theorem main_all_answered {ι σ : Type} (host : HidHost ι σ) (h : HidDevice σ) (info : ι)
    (dev d2 : σ) (ls : List (List Byte))
    (henum : host.Enumerate 0x04d8 0xfb31 = [info])
    (hopen : host.Open info = Except.ok dev)
    (hans : answered h dev reportItems = some (ls, d2)) :
    main host h
      = (Exit.ok (), [Event.enumerate 0x04d8 0xfb31, Event.devOpen] ++ stretch reportItems ls
          ++ [Event.devClose]) := by
  have hr := report_answered h reportItems [] dev d2
    [Event.enumerate 0x04d8 0xfb31, Event.devOpen] ls hans
  rw [List.append_nil] at hr
  rw [main_run host h info dev henum hopen, hr]
  rfl

/-- The run of `main` when the write of the exchange after the completed
items `done` fails. -/
theorem main_write_fails {ι σ : Type} (host : HidHost ι σ) (h : HidDevice σ) (info : ι)
    (dev d d2 : σ) (done later : List Item) (it : Item) (ls : List (List Byte)) (e : String)
    (henum : host.Enumerate 0x04d8 0xfb31 = [info])
    (hopen : host.Open info = Except.ok dev)
    (hsplit : reportItems = done ++ it :: later)
    (hans : answered h dev done = some (ls, d))
    (hfail : exchange h d it.cmd = Answer.writeError e d2) :
    main host h
      = (Exit.fatal e, [Event.enumerate 0x04d8 0xfb31, Event.devOpen] ++ stretch done ls
          ++ [Event.devWrite (request it.cmd)]) := by
  rw [main_run host h info dev henum hopen, hsplit,
    report_answered h done (it :: later) dev d _ ls hans]
  simp only [report, hfail]

/-- The run of `main` when the read of the exchange after the completed items
`done` fails. -/
theorem main_read_fails {ι σ : Type} (host : HidHost ι σ) (h : HidDevice σ) (info : ι)
    (dev d d2 : σ) (done later : List Item) (it : Item) (ls : List (List Byte)) (e : String)
    (henum : host.Enumerate 0x04d8 0xfb31 = [info])
    (hopen : host.Open info = Except.ok dev)
    (hsplit : reportItems = done ++ it :: later)
    (hans : answered h dev done = some (ls, d))
    (hfail : exchange h d it.cmd = Answer.readError e d2) :
    main host h
      = (Exit.fatal e, [Event.enumerate 0x04d8 0xfb31, Event.devOpen] ++ stretch done ls
          ++ [Event.devWrite (request it.cmd), Event.devRead 65]) := by
  rw [main_run host h info dev henum hopen, hsplit,
    report_answered h done (it :: later) dev d _ ls hans]
  simp only [report, hfail]

/-- The run of `main` when the decoding of the response of the exchange after
the completed items `done` panics. -/
theorem main_decode_panics {ι σ : Type} (host : HidHost ι σ) (h : HidDevice σ) (info : ι)
    (dev d d2 : σ) (done later : List Item) (it : Item) (ls : List (List Byte))
    (buf : List Byte) (e : String)
    (henum : host.Enumerate 0x04d8 0xfb31 = [info])
    (hopen : host.Open info = Except.ok dev)
    (hsplit : reportItems = done ++ it :: later)
    (hans : answered h dev done = some (ls, d))
    (hresp : exchange h d it.cmd = Answer.response buf d2)
    (hline : it.line buf = Exit.panic e) :
    main host h
      = (Exit.panic e, [Event.enumerate 0x04d8 0xfb31, Event.devOpen] ++ stretch done ls
          ++ [Event.devWrite (request it.cmd), Event.devRead 65] ++ [Event.devClose]) := by
  rw [main_run host h info dev henum hopen, hsplit,
    report_answered h done (it :: later) dev d _ ls hans]
  simp only [report, hresp, hline]

/-- The trace of a run of report items extends the trace it starts from. -/
theorem report_extends {σ : Type} (h : HidDevice σ) (its : List Item) :
    ∀ (d : σ) (t : List Event), ∃ u, (report h its d t).2 = t ++ u := by
  induction its with
  | nil => intro d t; exact ⟨[], by simp [report]⟩
  | cons it its ih =>
    intro d t
    simp only [report]
    cases exchange h d it.cmd with
    | writeError e d3 => exact ⟨_, rfl⟩
    | readError e d3 => exact ⟨_, rfl⟩
    | response buf d3 =>
      simp only
      cases it.line buf with
      | fatal e => exact ⟨_, rfl⟩
      | panic e => exact ⟨_, rfl⟩
      | ok l =>
        simp only
        obtain ⟨u, hu⟩ := ih d3
          (t ++ [Event.devWrite (request it.cmd), Event.devRead 65, Event.stdout l])
        exact ⟨_, by rw [hu, List.append_assoc]⟩

theorem main_not_one {ι σ : Type} (host : HidHost ι σ) (h : HidDevice σ)
    (hne : (host.Enumerate 0x04d8 0xfb31).length ≠ 1) :
    main host h = (Exit.fatal "could not open device", [Event.enumerate 0x04d8 0xfb31]) := by
  unfold main
  simp only [hne, ne_eq, not_false_eq_true, if_true]

theorem main_open_error {ι σ : Type} (host : HidHost ι σ) (h : HidDevice σ) (info : ι)
    (e : String) (henum : host.Enumerate 0x04d8 0xfb31 = [info])
    (hopen : host.Open info = Except.error e) :
    main host h = (Exit.fatal e, [Event.enumerate 0x04d8 0xfb31, Event.devOpen]) := by
  unfold main
  simp only [henum, List.length_singleton, ne_eq, not_true_eq_false, if_false,
    List.getElem?_cons_zero, hopen, List.singleton_append]

/-- The index of the first `c`, when there is one, is what `IndexByte`
returns. -/
theorem IndexByte_first (b : List Byte) (c : Byte) (n : Nat) (hn : b[n]? = some c)
    (hbefore : ∀ i, i < n → b[i]? ≠ some c) : IndexByte b c = (n : Int) := by
  have hlt : n < b.length := by
    rcases Nat.lt_or_ge n b.length with hlt | hge
    · exact hlt
    · rw [List.getElem?_eq_none hge] at hn
      cases hn
  have hsplit : b = b.take n ++ c :: b.drop (n + 1) := by
    have hget : b[n] = c := by
      rw [List.getElem?_eq_getElem hlt] at hn
      exact Option.some.inj hn
    rw [← hget, ← List.drop_eq_getElem_cons hlt, List.take_append_drop]
  have hpre : ∀ x ∈ b.take n, x ≠ c := by
    intro x hx hxc
    obtain ⟨i, hi, hxi⟩ := List.mem_iff_getElem.mp hx
    rw [List.length_take] at hi
    have hin : i < n := by omega
    apply hbefore i hin
    rw [List.getElem_take] at hxi
    rw [List.getElem?_eq_getElem (by omega), hxi, hxc]
  have := IndexByte_append (b.take n) (b.drop (n + 1)) c hpre
  rw [← hsplit, List.length_take, Nat.min_eq_left (by omega)] at this
  exact this

theorem bytes_2_5 (buf : List Byte) (hlen : buf.length = 65) :
    (buf.drop 2).take 4 = [buf.getD 2 0, buf.getD 3 0, buf.getD 4 0, buf.getD 5 0] := by
  match buf, hlen with
  | _ :: _ :: _ :: _ :: _ :: _ :: _, _ => rfl

theorem decodeFrequency_of_bytes (buf : List Byte) (hlen : buf.length = 65) (f : Nat)
    (hf : f < 2 ^ 32)
    (hb : ((buf.drop 2).take 4).map Fin.val
      = [f % 256, f / 2 ^ 8 % 256, f / 2 ^ 16 % 256, f / 2 ^ 24 % 256]) :
    decodeFrequency buf = f := by
  rw [bytes_2_5 buf hlen] at hb
  simp only [List.map_cons, List.map_nil, List.cons.injEq, and_true] at hb
  obtain ⟨h2, h3, h4, h5⟩ := hb
  unfold decodeFrequency
  rw [h2, h3, h4, h5]
  omega

theorem decodeFrequency_inj (buf buf2 : List Byte) (hlen : buf.length = 65)
    (hlen2 : buf2.length = 65) :
    decodeFrequency buf = decodeFrequency buf2 ↔ (buf.drop 2).take 4 = (buf2.drop 2).take 4 := by
  rw [bytes_2_5 buf hlen, bytes_2_5 buf2 hlen2]
  unfold decodeFrequency
  have a2 := (buf.getD 2 0).isLt
  have a3 := (buf.getD 3 0).isLt
  have a4 := (buf.getD 4 0).isLt
  have a5 := (buf.getD 5 0).isLt
  have b2 := (buf2.getD 2 0).isLt
  have b3 := (buf2.getD 3 0).isLt
  have b4 := (buf2.getD 4 0).isLt
  have b5 := (buf2.getD 5 0).isLt
  simp only [List.cons.injEq, and_true, Fin.ext_iff]
  omega

theorem accessorRun_buf_length {σ α : Type} (h : HidDevice σ) (cmd : Byte)
    (dec : List Byte → Exit α) (p : Proc σ) :
    (accessorRun h cmd dec p).2.fcdpp.buf.length = 65 := by
  unfold accessorRun
  cases hx : exchange h p.fcdpp.dev cmd with
  | writeError e d => exact request_length cmd
  | readError e d => exact request_length cmd
  | response buf d => exact exchange_response_length h _ _ _ _ hx

/-! ## Lemmas on the text of the standard output -/

theorem textLines_line (body rest : List Byte) (hbody : (10 : Byte) ∉ body) :
    textLines (body ++ 10 :: rest) = body :: textLines rest := by
  induction body with
  | nil => simp [textLines]
  | cons b bs ih =>
    have hb : b ≠ 10 := fun hc => hbody (hc ▸ List.mem_cons_self b bs)
    have hbs : (10 : Byte) ∉ bs := fun hc => hbody (List.mem_cons_of_mem b hc)
    simp only [List.cons_append, textLines, hb, if_false, List.append_eq]
    rw [ih hbs]

theorem textLines_flatten (ls : List (List Byte))
    (hls : ∀ l ∈ ls, ∃ body : List Byte, l = body ++ [10] ∧ (10 : Byte) ∉ body) :
    textLines ls.flatten = ls.map List.dropLast := by
  induction ls with
  | nil => rfl
  | cons l ls ih =>
    obtain ⟨body, hl, hbody⟩ := hls l (List.mem_cons_self l ls)
    have ih2 := ih (fun x hx => hls x (List.mem_cons_of_mem l hx))
    rw [List.flatten_cons, List.map_cons, hl, List.append_assoc, List.singleton_append,
      textLines_line body _ hbody, ih2, List.dropLast_concat]

theorem stdoutText_append (xs ys : List Event) :
    stdoutText (xs ++ ys) = stdoutText xs ++ stdoutText ys := by
  induction xs with
  | nil => rfl
  | cons e es ih => cases e <;> simp [stdoutText, ih]

theorem stdoutText_stretch (its : List Item) :
    ∀ ls : List (List Byte), ls.length = its.length → stdoutText (stretch its ls) = ls.flatten := by
  induction its with
  | nil =>
    intro ls hl
    cases ls with
    | nil => rfl
    | cons l ls => simp at hl
  | cons it its ih =>
    intro ls hl
    cases ls with
    | nil => simp at hl
    | cons l ls =>
      simp only [List.length_cons, Nat.add_right_cancel_iff] at hl
      simp [stretch, stdoutText, ih ls hl]

theorem lineAsPrinted_body (label : String) (value : List Byte) (unit : String) :
    lineAsPrinted label value unit = lineBody label value unit ++ [10] := by
  unfold lineAsPrinted lineBody
  rfl

theorem lineBody_no_lf (label : String) (value : List Byte) (unit : String)
    (hlabel : (10 : Byte) ∉ ascii label) (hvalue : (10 : Byte) ∉ value)
    (hunit : (10 : Byte) ∉ ascii unit) : (10 : Byte) ∉ lineBody label value unit := by
  unfold lineBody
  simp only [List.mem_append, List.mem_replicate, not_or]
  refine ⟨⟨⟨⟨⟨?_, hlabel⟩, by decide⟩, by decide⟩, hvalue⟩, hunit⟩
  intro hc
  exact absurd hc.2 (by decide)

/-- A line of the report is a single line when its label, value and unit have
no line feed. -/
theorem lineAsPrinted_oneLine (label : String) (value : List Byte) (unit : String)
    (hlabel : (10 : Byte) ∉ ascii label) (hvalue : (10 : Byte) ∉ value)
    (hunit : (10 : Byte) ∉ ascii unit) :
    ∃ body : List Byte, lineAsPrinted label value unit = body ++ [10] ∧ (10 : Byte) ∉ body :=
  ⟨lineBody label value unit, lineAsPrinted_body label value unit,
    lineBody_no_lf label value unit hlabel hvalue hunit⟩

theorem digitChar_no_lf (d : Nat) (hd : d < 10) :
    (Fin.ofNat (Nat.digitChar d).toNat : Byte) ≠ 10 := by
  interval_cases d <;> decide

theorem toDigitsCore_no_lf (fuel : Nat) :
    ∀ (n : Nat) (ds : List Char), (∀ c ∈ ds, (Fin.ofNat c.toNat : Byte) ≠ 10) →
      ∀ c ∈ Nat.toDigitsCore 10 fuel n ds, (Fin.ofNat c.toNat : Byte) ≠ 10 := by
  induction fuel with
  | zero => intro n ds hds; simpa [Nat.toDigitsCore] using hds
  | succ fuel ih =>
    intro n ds hds
    have hcons : ∀ c ∈ Nat.digitChar (n % 10) :: ds, (Fin.ofNat c.toNat : Byte) ≠ 10 := by
      intro c hc
      rcases List.mem_cons.mp hc with rfl | hc
      · exact digitChar_no_lf (n % 10) (Nat.mod_lt n (by decide))
      · exact hds c hc
    simp only [Nat.toDigitsCore]
    split
    · exact hcons
    · exact ih _ _ hcons

theorem decimal_no_lf (n : Nat) : (10 : Byte) ∉ decimal n := by
  intro hmem
  unfold decimal ascii at hmem
  obtain ⟨c, hc, hc10⟩ := List.mem_map.mp hmem
  have hc2 : c ∈ Nat.toDigitsCore 10 (n + 1) n [] := hc
  exact toDigitsCore_no_lf (n + 1) n [] (by simp) c hc2 hc10

theorem bool_no_lf (b : Bool) : (10 : Byte) ∉ ascii (toString b) := by
  cases b <;> decide

theorem RFFilter_String_no_lf (f : RFFilter) : (10 : Byte) ∉ ascii f.String := by
  obtain ⟨b⟩ := f
  by_cases hb : 11 ≤ b.val
  · rw [RFFilter_String_unknown b hb]
    decide
  · obtain ⟨v, hv⟩ := b
    simp only [not_le] at hb
    interval_cases v <;> revert hv <;> decide

theorem IFFilter_String_no_lf (f : IFFilter) : (10 : Byte) ∉ ascii f.String := by
  obtain ⟨b⟩ := f
  by_cases hb : 8 ≤ b.val
  · rw [IFFilter_String_unknown b hb]
    decide
  · obtain ⟨v, hv⟩ := b
    simp only [not_le] at hb
    interval_cases v <;> revert hv <;> decide

/-- The lines of the report after the first are single lines, whatever the
buffer. -/
theorem tail_items_oneLine (it : Item) (hit : it ∈ reportItems.tail) (buf l : List Byte)
    (hl : it.line buf = Exit.ok l) :
    ∃ body : List Byte, l = body ++ [10] ∧ (10 : Byte) ∉ body := by
  simp only [reportItems, List.tail_cons, List.mem_cons, List.mem_singleton, List.mem_nil_iff,
    or_false] at hit
  rcases hit with rfl | rfl | rfl | rfl | rfl | rfl | rfl
  · obtain rfl := Exit.ok.inj hl
    exact lineAsPrinted_oneLine _ _ _ (by decide) (decimal_no_lf _) (by decide)
  · obtain rfl := Exit.ok.inj hl
    exact lineAsPrinted_oneLine _ _ _ (by decide) (bool_no_lf _) (by decide)
  · obtain rfl := Exit.ok.inj hl
    exact lineAsPrinted_oneLine _ _ _ (by decide) (RFFilter_String_no_lf _) (by decide)
  · obtain rfl := Exit.ok.inj hl
    exact lineAsPrinted_oneLine _ _ _ (by decide) (bool_no_lf _) (by decide)
  · obtain rfl := Exit.ok.inj hl
    exact lineAsPrinted_oneLine _ _ _ (by decide) (decimal_no_lf _) (by decide)
  · obtain rfl := Exit.ok.inj hl
    exact lineAsPrinted_oneLine _ _ _ (by decide) (IFFilter_String_no_lf _) (by decide)
  · obtain rfl := Exit.ok.inj hl
    exact lineAsPrinted_oneLine _ _ _ (by decide) (bool_no_lf _) (by decide)

/-- No line of the report ends its decoding with a fatal error. -/
theorem reportItems_line_not_fatal (it : Item) (hit : it ∈ reportItems) (buf : List Byte)
    (e : String) : it.line buf ≠ Exit.fatal e := by
  simp only [reportItems, List.mem_cons, List.mem_singleton, List.mem_nil_iff, or_false] at hit
  rcases hit with rfl | rfl | rfl | rfl | rfl | rfl | rfl | rfl
  · simp only [decodeQuery]
    split <;> simp [Exit.map]
  all_goals simp

theorem answered_oneLine {σ : Type} (h : HidDevice σ) (its : List Item)
    (hits : ∀ it ∈ its, ∀ buf l : List Byte, it.line buf = Exit.ok l →
      ∃ body : List Byte, l = body ++ [10] ∧ (10 : Byte) ∉ body) :
    ∀ (d d2 : σ) (ls : List (List Byte)), answered h d its = some (ls, d2) →
      ∀ l ∈ ls, ∃ body : List Byte, l = body ++ [10] ∧ (10 : Byte) ∉ body := by
  induction its with
  | nil =>
    intro d d2 ls ha l hl
    simp only [answered, Option.some.injEq, Prod.mk.injEq] at ha
    rw [← ha.1] at hl
    cases hl
  | cons it its ih =>
    intro d d2 ls ha l hl
    simp only [answered] at ha
    cases hx : exchange h d it.cmd with
    | writeError e d3 => rw [hx] at ha; cases ha
    | readError e d3 => rw [hx] at ha; cases ha
    | response buf d3 =>
      rw [hx] at ha
      simp only at ha
      cases hline : it.line buf with
      | fatal e => rw [hline] at ha; cases ha
      | panic e => rw [hline] at ha; cases ha
      | ok l1 =>
        rw [hline] at ha
        simp only at ha
        cases hr : answered h d3 its with
        | none => rw [hr] at ha; cases ha
        | some r =>
          obtain ⟨ls2, d4⟩ := r
          rw [hr] at ha
          simp only [Option.some.injEq, Prod.mk.injEq] at ha
          rw [← ha.1] at hl
          rcases List.mem_cons.mp hl with rfl | hl2
          · exact hits it (List.mem_cons_self it its) buf l hline
          · exact ih (fun x hx2 => hits x (List.mem_cons_of_mem it hx2)) d3 d4 ls2 hr l hl2

/-- The lines of a completed first stretch of the report are single lines
when the identity string that `Query` decodes has no line feed. -/
theorem done_oneLine {σ : Type} (h : HidDevice σ) (dev d : σ) (done later : List Item)
    (ls : List (List Byte)) (hsplit : reportItems = done ++ later)
    (hans : answered h dev done = some (ls, d))
    (hid : ∀ (buf : List Byte) (d1 : σ) (s : List Byte),
      exchange h dev FCD_HID_CMD_QUERY = Answer.response buf d1 →
      decodeQuery buf = Exit.ok s → (10 : Byte) ∉ s) :
    ∀ l ∈ ls, ∃ body : List Byte, l = body ++ [10] ∧ (10 : Byte) ∉ body := by
  cases done with
  | nil =>
    intro l hl
    simp only [answered, Option.some.injEq, Prod.mk.injEq] at hans
    rw [← hans.1] at hl
    cases hl
  | cons q rest =>
    have hq : q = Item.mk FCD_HID_CMD_QUERY
        (fun buf => (decodeQuery buf).map (fun s => lineAsPrinted "Query" s "")) := by
      have := congrArg List.head? hsplit
      simp only [reportItems, List.head?_cons, List.cons_append, Option.some.injEq] at this
      exact this.symm
    have hrest : ∀ it ∈ rest, it ∈ reportItems.tail := by
      intro it hit
      have := congrArg List.tail hsplit
      rw [this]
      simp only [List.cons_append, List.tail_cons, List.mem_append]
      exact Or.inl hit
    intro l hl
    simp only [answered] at hans
    cases hx : exchange h dev q.cmd with
    | writeError e d3 => rw [hx] at hans; cases hans
    | readError e d3 => rw [hx] at hans; cases hans
    | response buf d3 =>
      rw [hx] at hans
      simp only at hans
      cases hline : q.line buf with
      | fatal e => rw [hline] at hans; cases hans
      | panic e => rw [hline] at hans; cases hans
      | ok l1 =>
        rw [hline] at hans
        simp only at hans
        cases hr : answered h d3 rest with
        | none => rw [hr] at hans; cases hans
        | some r =>
          obtain ⟨ls2, d4⟩ := r
          rw [hr] at hans
          simp only [Option.some.injEq, Prod.mk.injEq] at hans
          rw [← hans.1] at hl
          rcases List.mem_cons.mp hl with rfl | hl2
          · subst hq
            simp only at hx hline
            cases hdq : decodeQuery buf with
            | fatal e => rw [hdq] at hline; cases hline
            | panic e => rw [hdq] at hline; cases hline
            | ok s =>
              rw [hdq] at hline
              obtain rfl := Exit.ok.inj hline
              exact lineAsPrinted_oneLine _ _ _ (by decide) (hid buf d3 s hx hdq) (by decide)
          · exact answered_oneLine h rest
              (fun it hit buf l hl3 => tail_items_oneLine it (hrest it hit) buf l hl3)
              d3 d4 ls2 hr l hl2

/-- Every run of a list of items either answers them all or stops at a first
item whose write fails, whose read fails, or whose line cannot be decoded. -/
theorem answered_or_stops {σ : Type} (h : HidDevice σ) (its : List Item) :
    ∀ d : σ,
      (∃ (ls : List (List Byte)) (d2 : σ), answered h d its = some (ls, d2)) ∨
      (∃ (done later : List Item) (it : Item) (ls : List (List Byte)) (d1 : σ),
        its = done ++ it :: later ∧ answered h d done = some (ls, d1) ∧
        ((∃ (e : String) (d2 : σ), exchange h d1 it.cmd = Answer.writeError e d2) ∨
         (∃ (e : String) (d2 : σ), exchange h d1 it.cmd = Answer.readError e d2) ∨
         (∃ (buf : List Byte) (d2 : σ), exchange h d1 it.cmd = Answer.response buf d2 ∧
            ∀ l, it.line buf ≠ Exit.ok l))) := by
  induction its with
  | nil => intro d; exact Or.inl ⟨[], d, rfl⟩
  | cons it its ih =>
    intro d
    cases hx : exchange h d it.cmd with
    | writeError e d3 =>
      exact Or.inr ⟨[], its, it, [], d, rfl, rfl, Or.inl ⟨e, d3, hx⟩⟩
    | readError e d3 =>
      exact Or.inr ⟨[], its, it, [], d, rfl, rfl, Or.inr (Or.inl ⟨e, d3, hx⟩)⟩
    | response buf d3 =>
      cases hline : it.line buf with
      | fatal e =>
        exact Or.inr ⟨[], its, it, [], d, rfl, rfl,
          Or.inr (Or.inr ⟨buf, d3, hx, by intro l hl; rw [hline] at hl; cases hl⟩)⟩
      | panic e =>
        exact Or.inr ⟨[], its, it, [], d, rfl, rfl,
          Or.inr (Or.inr ⟨buf, d3, hx, by intro l hl; rw [hline] at hl; cases hl⟩)⟩
      | ok l1 =>
        rcases ih d3 with ⟨ls, d4, hans⟩ | ⟨done, later, it2, ls, d1, hsplit, hans, hstop⟩
        · left
          refine ⟨l1 :: ls, d4, ?_⟩
          simp only [answered, hx, hline, hans]
        · right
          refine ⟨it :: done, later, it2, l1 :: ls, d1, by rw [hsplit]; rfl, ?_, hstop⟩
          simp only [answered, hx, hline, hans]

/-- The run of `main` when the decoding of the response of the exchange after
the completed items `done` ends fatally. -/
theorem main_decode_fatal {ι σ : Type} (host : HidHost ι σ) (h : HidDevice σ) (info : ι)
    (dev d d2 : σ) (done later : List Item) (it : Item) (ls : List (List Byte))
    (buf : List Byte) (e : String)
    (henum : host.Enumerate 0x04d8 0xfb31 = [info])
    (hopen : host.Open info = Except.ok dev)
    (hsplit : reportItems = done ++ it :: later)
    (hans : answered h dev done = some (ls, d))
    (hresp : exchange h d it.cmd = Answer.response buf d2)
    (hline : it.line buf = Exit.fatal e) :
    main host h
      = (Exit.fatal e, [Event.enumerate 0x04d8 0xfb31, Event.devOpen] ++ stretch done ls
          ++ [Event.devWrite (request it.cmd), Event.devRead 65]) := by
  rw [main_run host h info dev henum hopen, hsplit,
    report_answered h done (it :: later) dev d _ ls hans]
  simp only [report, hresp, hline]

/-- The lines of the report after the first can always be decoded. -/
theorem tail_items_ok (it : Item) (hit : it ∈ reportItems.tail) (buf : List Byte) :
    ∃ l, it.line buf = Exit.ok l := by
  simp only [reportItems, List.tail_cons, List.mem_cons, List.mem_singleton, List.mem_nil_iff,
    or_false] at hit
  rcases hit with rfl | rfl | rfl | rfl | rfl | rfl | rfl <;> exact ⟨_, rfl⟩

/-- What is printed along the trace of a run of `main` that completed the
items `done` and then added the events `post`, none of which prints. -/
theorem frame_text (done : List Item) (ls : List (List Byte)) (post : List Event)
    (hlen : ls.length = done.length) (hp : printed post = []) (ht : stdoutText post = []) :
    printed ([Event.enumerate 0x04d8 0xfb31, Event.devOpen] ++ stretch done ls ++ post) = ls ∧
    stdoutText ([Event.enumerate 0x04d8 0xfb31, Event.devOpen] ++ stretch done ls ++ post)
      = ls.flatten := by
  constructor
  · rw [List.append_assoc, printed_append, printed_append, printed_stretch _ _ hlen, hp]
    simp [printed]
  · rw [List.append_assoc, stdoutText_append, stdoutText_append, stdoutText_stretch _ _ hlen, ht]
    simp [stdoutText]

/-! ## Claims -/

/-- C1. When the device accepts the frequency request and answers the read,
`Frequency` returns `buf[2] + 2^8*buf[3] + 2^16*buf[4] + 2^24*buf[5]` for the
buffer `buf` left by the read, whatever the response was; the value is below
`2^32`, so the OR of the shifted bytes in 32-bit arithmetic neither overflows
nor truncates. -/
theorem Frequency_little_endian {σ : Type} (h : HidDevice σ) (p : Proc σ) (n : Nat)
    (d1 d2 : σ) (data : List Byte)
    (hlen : p.fcdpp.buf.length = 65)
    (hw : h.Write p.fcdpp.dev (request FCD_HID_CMD_GET_FREQUENCY_HZ) = (Except.ok n, d1))
    (hr : h.Read d1 65 = (Except.ok data, d2)) :
    ∃ b2 b3 b4 b5 : Byte,
      (readInto (request FCD_HID_CMD_GET_FREQUENCY_HZ) data)[2]? = some b2 ∧
      (readInto (request FCD_HID_CMD_GET_FREQUENCY_HZ) data)[3]? = some b3 ∧
      (readInto (request FCD_HID_CMD_GET_FREQUENCY_HZ) data)[4]? = some b4 ∧
      (readInto (request FCD_HID_CMD_GET_FREQUENCY_HZ) data)[5]? = some b5 ∧
      FCDPP.Frequency h p
        = (Exit.ok (b2.val + 2 ^ 8 * b3.val + 2 ^ 16 * b4.val + 2 ^ 24 * b5.val),
           { fcdpp := { dev := d2,
                        buf := readInto (request FCD_HID_CMD_GET_FREQUENCY_HZ) data },
             trace := p.trace ++ [Event.devWrite (request FCD_HID_CMD_GET_FREQUENCY_HZ),
                                  Event.devRead 65] }) ∧
      b2.val + 2 ^ 8 * b3.val + 2 ^ 16 * b4.val + 2 ^ 24 * b5.val < 2 ^ 32 := by
  obtain ⟨b2, h2⟩ := response_getElem? FCD_HID_CMD_GET_FREQUENCY_HZ data 2 (by omega)
  obtain ⟨b3, h3⟩ := response_getElem? FCD_HID_CMD_GET_FREQUENCY_HZ data 3 (by omega)
  obtain ⟨b4, h4⟩ := response_getElem? FCD_HID_CMD_GET_FREQUENCY_HZ data 4 (by omega)
  obtain ⟨b5, h5⟩ := response_getElem? FCD_HID_CMD_GET_FREQUENCY_HZ data 5 (by omega)
  refine ⟨b2, b3, b4, b5, h2, h3, h4, h5, ?_, ?_⟩
  · unfold FCDPP.Frequency
    rw [prelude_ok h _ _ p n d1 d2 data hlen hw hr]
    simp only [bind, pure, getBuf, h2, h3, h4, h5]
    rw [or_shift_bytes _ _ _ _ b2.isLt b3.isLt b4.isLt b5.isLt]
  · have := b2.isLt; have := b3.isLt; have := b4.isLt; have := b5.isLt
    omega

/-- Witness of C1 on the scripted device, from a buffer full of stale `0xFF`
bytes: payload `[0x10,0x27,0x00,0x00]` decodes to `10000` and payload
`[0xFF,0xFF,0xFF,0xFF]` to `4294967295`. -/
theorem Frequency_little_endian_witness :
    (FCDPP.Frequency scripted (start [[102, 1, 0x10, 0x27, 0x00, 0x00]] 255)).1 = Exit.ok 10000 ∧
    (FCDPP.Frequency scripted (start [[102, 1, 0xFF, 0xFF, 0xFF, 0xFF]] 255)).1
      = Exit.ok 4294967295 := by
  constructor
  · obtain ⟨b2, b3, b4, b5, h2, h3, h4, h5, hrun, _⟩ :=
      Frequency_little_endian scripted (start [[102, 1, 0x10, 0x27, 0x00, 0x00]] 255) 65
        [[102, 1, 0x10, 0x27, 0x00, 0x00]] [] [102, 1, 0x10, 0x27, 0x00, 0x00] rfl rfl rfl
    cases Option.some.inj (h2.symm.trans (by decide : _ = some (0x10 : Byte)))
    cases Option.some.inj (h3.symm.trans (by decide : _ = some (0x27 : Byte)))
    cases Option.some.inj (h4.symm.trans (by decide : _ = some (0x00 : Byte)))
    cases Option.some.inj (h5.symm.trans (by decide : _ = some (0x00 : Byte)))
    rw [hrun]; rfl
  · obtain ⟨b2, b3, b4, b5, h2, h3, h4, h5, hrun, _⟩ :=
      Frequency_little_endian scripted (start [[102, 1, 0xFF, 0xFF, 0xFF, 0xFF]] 255) 65
        [[102, 1, 0xFF, 0xFF, 0xFF, 0xFF]] [] [102, 1, 0xFF, 0xFF, 0xFF, 0xFF] rfl rfl rfl
    cases Option.some.inj (h2.symm.trans (by decide : _ = some (0xFF : Byte)))
    cases Option.some.inj (h3.symm.trans (by decide : _ = some (0xFF : Byte)))
    cases Option.some.inj (h4.symm.trans (by decide : _ = some (0xFF : Byte)))
    cases Option.some.inj (h5.symm.trans (by decide : _ = some (0xFF : Byte)))
    rw [hrun]; rfl

/-- C2, amended. When the buffer left by the read has non-zero bytes at offsets
0 and 1 and holds from offset 2 a string `s` of non-zero bytes immediately
followed by a zero byte, `Query` returns exactly `s`. -/
theorem Query_identity {σ : Type} (h : HidDevice σ) (p : Proc σ) (n : Nat)
    (d1 d2 : σ) (data : List Byte) (x0 x1 : Byte) (s rest : List Byte)
    (hlen : p.fcdpp.buf.length = 65)
    (hw : h.Write p.fcdpp.dev (request FCD_HID_CMD_QUERY) = (Except.ok n, d1))
    (hr : h.Read d1 65 = (Except.ok data, d2))
    (hbuf : readInto (request FCD_HID_CMD_QUERY) data = x0 :: x1 :: (s ++ 0 :: rest))
    (h0 : x0 ≠ 0) (h1 : x1 ≠ 0) (hs : ∀ b ∈ s, b ≠ 0) :
    FCDPP.Query h p
      = (Exit.ok s,
         { fcdpp := { dev := d2, buf := x0 :: x1 :: (s ++ 0 :: rest) },
           trace := p.trace ++ [Event.devWrite (request FCD_HID_CMD_QUERY),
                                Event.devRead 65] }) := by
  have hidx : IndexByte (x0 :: x1 :: (s ++ 0 :: rest)) 0 = ((s.length + 2 : Nat) : Int) := by
    have := IndexByte_append (x0 :: x1 :: s) rest 0 (by
      intro b hb
      simp only [List.mem_cons] at hb
      rcases hb with rfl | rfl | hb
      · exact h0
      · exact h1
      · exact hs b hb)
    simpa using this
  unfold FCDPP.Query
  rw [prelude_ok h _ _ p n d1 d2 data hlen hw hr, hbuf]
  simp only [bind, theBuf, sliceBuf, hidx]
  have hcond : (0 : Int) ≤ 2 ∧ (2 : Int) ≤ ((s.length + 2 : Nat) : Int) ∧
      ((s.length + 2 : Nat) : Int) ≤ ((x0 :: x1 :: (s ++ 0 :: rest)).length : Int) := by
    simp only [List.length_cons, List.length_append]
    omega
  rw [if_pos hcond]
  have htake : (List.take (s.length + 2) (x0 :: x1 :: (s ++ 0 :: rest))).drop 2 = s := by
    simp [List.take_succ_cons]
  simp only [Int.toNat_ofNat]
  rw [show Int.toNat 2 = 2 from rfl, htake]

/-- Witness of the amended C2: the identity string `FCDAPP 1.0` behind two
non-zero bytes is returned as it is. -/
theorem Query_identity_witness :
    (FCDPP.Query scripted (start [padded (1 :: 1 :: ascii "FCDAPP 1.0")] 255)).1
      = Exit.ok (ascii "FCDAPP 1.0") := by
  rw [Query_identity scripted (start [padded (1 :: 1 :: ascii "FCDAPP 1.0")] 255) 65
    [padded (1 :: 1 :: ascii "FCDAPP 1.0")] [] (padded (1 :: 1 :: ascii "FCDAPP 1.0"))
    1 1 (ascii "FCDAPP 1.0") (List.replicate 52 0) rfl rfl rfl (by decide) (by decide)
    (by decide) (by decide)]

/-- C2 as stated fails: a 65-byte buffer that holds `FCDAPP 1.0` at offset 2
followed by a zero byte, with a zero report-ID byte at offset 0, makes `Query`
panic on the slice instead of returning the string. -/
theorem Query_identity_counterexample :
    (∀ b ∈ ascii "FCDAPP 1.0", b ≠ 0) ∧
    (FCDPP.Query scripted (start [padded (0 :: 1 :: ascii "FCDAPP 1.0")] 255)).2.fcdpp.buf
      = 0 :: 1 :: (ascii "FCDAPP 1.0" ++ 0 :: List.replicate 52 0) ∧
    (FCDPP.Query scripted (start [padded (0 :: 1 :: ascii "FCDAPP 1.0")] 255)).2.fcdpp.buf.length
      = 65 ∧
    (FCDPP.Query scripted (start [padded (0 :: 1 :: ascii "FCDAPP 1.0")] 255)).1
      = Exit.panic "slice bounds out of range" ∧
    (FCDPP.Query scripted (start [padded (0 :: 1 :: ascii "FCDAPP 1.0")] 255)).1
      ≠ Exit.ok (ascii "FCDAPP 1.0") := by
  decide

/-- C3. `RFFilter.String` labels the bytes 0 to 10 with the eleven band names
and every byte from 11 to 255 with `unknown RF filter`; being a total function
to strings, it has no failing case. -/
theorem RFFilter_String_labels :
    RFFilter.String ⟨0⟩ = "0-4MHz" ∧
    RFFilter.String ⟨1⟩ = "4-8MHz" ∧
    RFFilter.String ⟨2⟩ = "8-16MHz" ∧
    RFFilter.String ⟨3⟩ = "16-32MHz" ∧
    RFFilter.String ⟨4⟩ = "32-75MHz" ∧
    RFFilter.String ⟨5⟩ = "75-125MHz" ∧
    RFFilter.String ⟨6⟩ = "125-250MHz" ∧
    RFFilter.String ⟨7⟩ = "145MHz" ∧
    RFFilter.String ⟨8⟩ = "410-875MHz" ∧
    RFFilter.String ⟨9⟩ = "435MHz" ∧
    RFFilter.String ⟨10⟩ = "875-2000MHz" ∧
    ∀ b : Byte, 11 ≤ b.val → RFFilter.String ⟨b⟩ = "unknown RF filter" := by
  exact ⟨rfl, rfl, rfl, rfl, rfl, rfl, rfl, rfl, rfl, rfl, rfl, RFFilter_String_unknown⟩

/-- Witness of C3 at the two ends of the unknown range. -/
theorem RFFilter_String_labels_witness :
    RFFilter.String ⟨11⟩ = "unknown RF filter" ∧
    RFFilter.String ⟨255⟩ = "unknown RF filter" :=
  ⟨RFFilter_String_labels.2.2.2.2.2.2.2.2.2.2.2 11 (by decide),
   RFFilter_String_labels.2.2.2.2.2.2.2.2.2.2.2 255 (by decide)⟩

/-- C4, amended. Among the 256 byte values exactly eleven, not ten, get a
label other than `unknown RF filter`: the `const` block declares eleven
bands, `TRFE_0_4` to `TRFE_875_2000`. -/
theorem rf_known_values_eleven :
    rfKnownCount = 11 ∧ rfConstants.length = 11 ∧ rfConstants.Nodup ∧
    ∀ f : RFFilter, f.String ≠ "unknown RF filter" ↔ f ∈ rfConstants := by
  refine ⟨by decide, by decide, by decide, ?_⟩
  intro f
  rw [Ne, RFFilter_String_unknown_iff, not_not]

/-- C4 as stated fails: the number of byte values with a label other than the
fallback is not ten. -/
theorem rf_known_values_not_ten : ¬ (rfKnownCount = 10) := by
  decide

/-- C5. `IFFilter.String` labels the bytes 0 to 7 with the eight bandwidth
names, so exactly eight byte values are known, and every byte from 8 to 255
gets `unknown IF filter`; being a total function to strings, it has no failing
case. -/
theorem IFFilter_String_labels :
    IFFilter.String ⟨0⟩ = "200kHz" ∧
    IFFilter.String ⟨1⟩ = "300kHz" ∧
    IFFilter.String ⟨2⟩ = "600kHz" ∧
    IFFilter.String ⟨3⟩ = "1536kHz" ∧
    IFFilter.String ⟨4⟩ = "5MHz" ∧
    IFFilter.String ⟨5⟩ = "6MHz" ∧
    IFFilter.String ⟨6⟩ = "7MHz" ∧
    IFFilter.String ⟨7⟩ = "8MHz" ∧
    ifKnownCount = 8 ∧
    ∀ b : Byte, 8 ≤ b.val → IFFilter.String ⟨b⟩ = "unknown IF filter" := by
  exact ⟨rfl, rfl, rfl, rfl, rfl, rfl, rfl, rfl, by decide, IFFilter_String_unknown⟩

/-- Witness of C5 at the two ends of the unknown range. -/
theorem IFFilter_String_labels_witness :
    IFFilter.String ⟨8⟩ = "unknown IF filter" ∧
    IFFilter.String ⟨255⟩ = "unknown IF filter" :=
  ⟨IFFilter_String_labels.2.2.2.2.2.2.2.2.2 8 (by decide),
   IFFilter_String_labels.2.2.2.2.2.2.2.2.2 255 (by decide)⟩

/-- C6. When the device accepts the request and answers the read, each of
`LNAGain`, `MixerGain` and `BiasTee` returns `true` if and only if the byte
`buf[2]` of the buffer left by the read is exactly 1, whatever the response
was. -/
theorem bool_accessors_exactly_one {σ : Type} (h : HidDevice σ) (p : Proc σ) (n : Nat)
    (d1 d2 : σ) (data : List Byte)
    (hlen : p.fcdpp.buf.length = 65)
    (hr : h.Read d1 65 = (Except.ok data, d2)) :
    (h.Write p.fcdpp.dev (request FCD_HID_CMD_GET_LNA_GAIN) = (Except.ok n, d1) →
      ∃ b : Byte, (readInto (request FCD_HID_CMD_GET_LNA_GAIN) data)[2]? = some b ∧
        FCDPP.LNAGain h p
          = (Exit.ok (decide (b = 1)),
             { fcdpp := { dev := d2, buf := readInto (request FCD_HID_CMD_GET_LNA_GAIN) data },
               trace := p.trace ++ [Event.devWrite (request FCD_HID_CMD_GET_LNA_GAIN),
                                    Event.devRead 65] })) ∧
    (h.Write p.fcdpp.dev (request FCD_HID_CMD_GET_MIXER_GAIN) = (Except.ok n, d1) →
      ∃ b : Byte, (readInto (request FCD_HID_CMD_GET_MIXER_GAIN) data)[2]? = some b ∧
        FCDPP.MixerGain h p
          = (Exit.ok (decide (b = 1)),
             { fcdpp := { dev := d2, buf := readInto (request FCD_HID_CMD_GET_MIXER_GAIN) data },
               trace := p.trace ++ [Event.devWrite (request FCD_HID_CMD_GET_MIXER_GAIN),
                                    Event.devRead 65] })) ∧
    (h.Write p.fcdpp.dev (request FCD_HID_CMD_GET_IF_GAIN) = (Except.ok n, d1) →
      ∃ b : Byte, (readInto (request FCD_HID_CMD_GET_IF_GAIN) data)[2]? = some b ∧
        FCDPP.BiasTee h p
          = (Exit.ok (decide (b = 1)),
             { fcdpp := { dev := d2, buf := readInto (request FCD_HID_CMD_GET_IF_GAIN) data },
               trace := p.trace ++ [Event.devWrite (request FCD_HID_CMD_GET_IF_GAIN),
                                    Event.devRead 65] })) := by
  refine ⟨?_, ?_, ?_⟩
  · intro hw
    obtain ⟨b, hb⟩ := response_getElem? FCD_HID_CMD_GET_LNA_GAIN data 2 (by omega)
    refine ⟨b, hb, ?_⟩
    unfold FCDPP.LNAGain
    rw [prelude_ok h _ _ p n d1 d2 data hlen hw hr]
    simp only [bind, pure, getBuf, hb]
    by_cases hb1 : b = 1 <;> simp [hb1]
  · intro hw
    obtain ⟨b, hb⟩ := response_getElem? FCD_HID_CMD_GET_MIXER_GAIN data 2 (by omega)
    refine ⟨b, hb, ?_⟩
    unfold FCDPP.MixerGain
    rw [prelude_ok h _ _ p n d1 d2 data hlen hw hr]
    simp only [bind, pure, getBuf, hb]
    by_cases hb1 : b = 1 <;> simp [hb1]
  · intro hw
    obtain ⟨b, hb⟩ := response_getElem? FCD_HID_CMD_GET_IF_GAIN data 2 (by omega)
    refine ⟨b, hb, ?_⟩
    unfold FCDPP.BiasTee
    rw [prelude_ok h _ _ p n d1 d2 data hlen hw hr]
    simp only [bind, pure, getBuf, hb]
    by_cases hb1 : b = 1 <;> simp [hb1]

/-- Witness of C6 on the scripted device, from a buffer full of stale `0xFF`
bytes: payload byte 1 gives `true`, payload bytes 0 and 5 give `false`, for
each of the three accessors. -/
theorem bool_accessors_exactly_one_witness :
    ((FCDPP.LNAGain scripted (start [[150, 1, 1]] 255)).1 = Exit.ok true ∧
     (FCDPP.LNAGain scripted (start [[150, 1, 0]] 255)).1 = Exit.ok false ∧
     (FCDPP.LNAGain scripted (start [[150, 1, 5]] 255)).1 = Exit.ok false) ∧
    ((FCDPP.MixerGain scripted (start [[154, 1, 1]] 255)).1 = Exit.ok true ∧
     (FCDPP.MixerGain scripted (start [[154, 1, 0]] 255)).1 = Exit.ok false ∧
     (FCDPP.MixerGain scripted (start [[154, 1, 5]] 255)).1 = Exit.ok false) ∧
    ((FCDPP.BiasTee scripted (start [[157, 1, 1]] 255)).1 = Exit.ok true ∧
     (FCDPP.BiasTee scripted (start [[157, 1, 0]] 255)).1 = Exit.ok false ∧
     (FCDPP.BiasTee scripted (start [[157, 1, 5]] 255)).1 = Exit.ok false) := by
  have lna : ∀ v : Byte,
      (FCDPP.LNAGain scripted (start [[150, 1, v]] 255)).1 = Exit.ok (decide (v = 1)) := by
    intro v
    obtain ⟨b, hb, hrun⟩ :=
      (bool_accessors_exactly_one scripted (start [[150, 1, v]] 255) 65 [[150, 1, v]] []
        [150, 1, v] rfl rfl).1 rfl
    cases Option.some.inj (hb.symm.trans (rfl : _ = some v))
    rw [hrun]
  have mixer : ∀ v : Byte,
      (FCDPP.MixerGain scripted (start [[154, 1, v]] 255)).1 = Exit.ok (decide (v = 1)) := by
    intro v
    obtain ⟨b, hb, hrun⟩ :=
      (bool_accessors_exactly_one scripted (start [[154, 1, v]] 255) 65 [[154, 1, v]] []
        [154, 1, v] rfl rfl).2.1 rfl
    cases Option.some.inj (hb.symm.trans (rfl : _ = some v))
    rw [hrun]
  have bias : ∀ v : Byte,
      (FCDPP.BiasTee scripted (start [[157, 1, v]] 255)).1 = Exit.ok (decide (v = 1)) := by
    intro v
    obtain ⟨b, hb, hrun⟩ :=
      (bool_accessors_exactly_one scripted (start [[157, 1, v]] 255) 65 [[157, 1, v]] []
        [157, 1, v] rfl rfl).2.2 rfl
    cases Option.some.inj (hb.symm.trans (rfl : _ = some v))
    rw [hrun]
  exact ⟨⟨lna 1, lna 0, lna 5⟩, ⟨mixer 1, mixer 0, mixer 5⟩, ⟨bias 1, bias 0, bias 5⟩⟩

/-- C7. From any 65-byte buffer content, the slice each accessor hands to
`Write` is the 65-byte report with 0 at offset 0, the accessor's command code
at offset 1 (Query 1, Frequency 102, LNAGain 150, RFFilter 153, MixerGain 154,
IFGain 157, IFFilter 162) and 0 at every offset from 2 to 64; it is the only
write of the accessor, whether the device then fails or answers. -/
theorem requests_are_clean {σ : Type} (h : HidDevice σ) (p : Proc σ)
    (hlen : p.fcdpp.buf.length = 65) :
    writes (FCDPP.Query h p).2.trace = writes p.trace ++ [0 :: 1 :: List.replicate 63 0] ∧
    writes (FCDPP.Frequency h p).2.trace = writes p.trace ++ [0 :: 102 :: List.replicate 63 0] ∧
    writes (FCDPP.LNAGain h p).2.trace = writes p.trace ++ [0 :: 150 :: List.replicate 63 0] ∧
    writes (FCDPP.RFFilter h p).2.trace = writes p.trace ++ [0 :: 153 :: List.replicate 63 0] ∧
    writes (FCDPP.MixerGain h p).2.trace = writes p.trace ++ [0 :: 154 :: List.replicate 63 0] ∧
    writes (FCDPP.IFGain h p).2.trace = writes p.trace ++ [0 :: 157 :: List.replicate 63 0] ∧
    writes (FCDPP.IFFilter h p).2.trace = writes p.trace ++ [0 :: 162 :: List.replicate 63 0] ∧
    ∀ c : Byte, (0 :: c :: List.replicate 63 (0 : Byte)).length = 65 ∧
      (0 :: c :: List.replicate 63 (0 : Byte))[0]? = some 0 ∧
      (0 :: c :: List.replicate 63 (0 : Byte))[1]? = some c ∧
      ∀ i : Nat, 2 ≤ i → i ≤ 64 → (0 :: c :: List.replicate 63 (0 : Byte))[i]? = some 0 := by
  refine ⟨Query_writes h p hlen, Frequency_writes h p hlen, LNAGain_writes h p hlen,
    RFFilter_writes h p hlen, MixerGain_writes h p hlen, IFGain_writes h p hlen,
    IFFilter_writes h p hlen, ?_⟩
  intro c
  refine ⟨by simp, rfl, rfl, ?_⟩
  intro i h2 h64
  obtain ⟨j, rfl⟩ : ∃ j, i = j + 2 := ⟨i - 2, by omega⟩
  simp only [List.getElem?_cons_succ]
  rw [List.getElem?_replicate, if_pos (by omega)]

/-- Witness of C7 on the scripted device: after a response full of `0xFF`
bytes was left in the buffer, the next requests carry none of it. -/
theorem requests_are_clean_witness :
    writes (FCDPP.Query scripted
      (start [[1, 1, 70, 67, 68]] 255)).2.trace = [0 :: 1 :: List.replicate 63 0] ∧
    writes (FCDPP.Frequency scripted
      (start [[102, 1, 0x10, 0x27]] 255)).2.trace = [0 :: 102 :: List.replicate 63 0] ∧
    writes (FCDPP.IFFilter scripted (start [] 255)).2.trace
      = [0 :: 162 :: List.replicate 63 0] :=
  ⟨(requests_are_clean scripted (start [[1, 1, 70, 67, 68]] 255) rfl).1,
   (requests_are_clean scripted (start [[102, 1, 0x10, 0x27]] 255) rfl).2.1,
   (requests_are_clean scripted (start [] 255) rfl).2.2.2.2.2.2.1⟩

/-- C8. From any 65-byte buffer content, `BiasTee` hands to `Write` the very
request `IFGain` hands to it: byte 1 is `FCD_HID_CMD_GET_IF_GAIN` (157), not
the bias-tee code `FCD_HID_CMD_GET_BIAS_TEE` (166) of the command table. -/
theorem BiasTee_sends_IFGain_request {σ : Type} (h : HidDevice σ) (p : Proc σ)
    (hlen : p.fcdpp.buf.length = 65) :
    ∃ req : List Byte,
      writes (FCDPP.BiasTee h p).2.trace = writes p.trace ++ [req] ∧
      writes (FCDPP.IFGain h p).2.trace = writes p.trace ++ [req] ∧
      req = 0 :: 157 :: List.replicate 63 0 ∧
      req[1]? = some FCD_HID_CMD_GET_IF_GAIN ∧
      FCD_HID_CMD_GET_IF_GAIN.val = 157 ∧
      FCD_HID_CMD_GET_BIAS_TEE.val = 166 ∧
      req[1]? ≠ some FCD_HID_CMD_GET_BIAS_TEE :=
  ⟨request FCD_HID_CMD_GET_IF_GAIN, BiasTee_writes h p hlen, IFGain_writes h p hlen,
    rfl, rfl, rfl, rfl, by decide⟩

/-- Witness of C8 on the scripted device: both accessors write the request
with command byte 157. -/
theorem BiasTee_sends_IFGain_request_witness :
    writes (FCDPP.BiasTee scripted (start [[157, 1, 1]] 255)).2.trace
      = writes (FCDPP.IFGain scripted (start [[157, 1, 1]] 255)).2.trace ∧
    writes (FCDPP.BiasTee scripted (start [[157, 1, 1]] 255)).2.trace
      = [0 :: 157 :: List.replicate 63 0] := by
  obtain ⟨req, hb, hi, hreq, _⟩ :=
    BiasTee_sends_IFGain_request scripted (start [[157, 1, 1]] 255) rfl
  rw [hb, hi, hreq]
  exact ⟨rfl, rfl⟩

/-- C9. When the device accepts the request and answers the read, `RFFilter()`
and `IFFilter()` return the selector whose raw byte is the byte `b` left at
offset 2, for each of the 256 values and without failing; the label of that
selector is the fallback exactly when `b` is none of the declared constants
(`b >= 11` for the RF filter, `b >= 8` for the IF filter). -/
theorem filter_accessors_round_trip {σ : Type} (h : HidDevice σ) (p : Proc σ) (n : Nat)
    (d1 d2 : σ) (data : List Byte)
    (hlen : p.fcdpp.buf.length = 65)
    (hr : h.Read d1 65 = (Except.ok data, d2)) :
    (h.Write p.fcdpp.dev (request FCD_HID_CMD_GET_RF_FILTER) = (Except.ok n, d1) →
      ∃ b : Byte, (readInto (request FCD_HID_CMD_GET_RF_FILTER) data)[2]? = some b ∧
        FCDPP.RFFilter h p
          = (Exit.ok (RFFilter.mk b),
             { fcdpp := { dev := d2,
                          buf := readInto (request FCD_HID_CMD_GET_RF_FILTER) data },
               trace := p.trace ++ [Event.devWrite (request FCD_HID_CMD_GET_RF_FILTER),
                                    Event.devRead 65] }) ∧
        (RFFilter.mk b).raw = b ∧
        ((RFFilter.mk b).String = "unknown RF filter" ↔ RFFilter.mk b ∉ rfConstants) ∧
        (RFFilter.mk b ∉ rfConstants ↔ 11 ≤ b.val)) ∧
    (h.Write p.fcdpp.dev (request FCD_HID_CMD_GET_IF_FILTER) = (Except.ok n, d1) →
      ∃ b : Byte, (readInto (request FCD_HID_CMD_GET_IF_FILTER) data)[2]? = some b ∧
        FCDPP.IFFilter h p
          = (Exit.ok (IFFilter.mk b),
             { fcdpp := { dev := d2,
                          buf := readInto (request FCD_HID_CMD_GET_IF_FILTER) data },
               trace := p.trace ++ [Event.devWrite (request FCD_HID_CMD_GET_IF_FILTER),
                                    Event.devRead 65] }) ∧
        (IFFilter.mk b).raw = b ∧
        ((IFFilter.mk b).String = "unknown IF filter" ↔ IFFilter.mk b ∉ ifConstants) ∧
        (IFFilter.mk b ∉ ifConstants ↔ 8 ≤ b.val)) := by
  refine ⟨?_, ?_⟩
  · intro hw
    obtain ⟨b, hb⟩ := response_getElem? FCD_HID_CMD_GET_RF_FILTER data 2 (by omega)
    refine ⟨b, hb, ?_, rfl, RFFilter_String_unknown_iff _, ?_⟩
    · unfold FCDPP.RFFilter
      rw [prelude_ok h _ _ p n d1 d2 data hlen hw hr]
      simp only [bind, pure, getBuf, hb]
    · rw [rfConstants_mem]; omega
  · intro hw
    obtain ⟨b, hb⟩ := response_getElem? FCD_HID_CMD_GET_IF_FILTER data 2 (by omega)
    refine ⟨b, hb, ?_, rfl, IFFilter_String_unknown_iff _, ?_⟩
    · unfold FCDPP.IFFilter
      rw [prelude_ok h _ _ p n d1 d2 data hlen hw hr]
      simp only [bind, pure, getBuf, hb]
    · rw [ifConstants_mem]; omega

/-- Witness of C9 on the scripted device: the unknown byte 200 comes back as
the selector 200 from both accessors and renders as the fallback label, and
the known byte 7 comes back as the selector 7. -/
theorem filter_accessors_round_trip_witness :
    (FCDPP.RFFilter scripted (start [[153, 1, 200]] 255)).1 = Exit.ok (RFFilter.mk 200) ∧
    (RFFilter.mk 200).String = "unknown RF filter" ∧
    (FCDPP.IFFilter scripted (start [[162, 1, 200]] 255)).1 = Exit.ok (IFFilter.mk 200) ∧
    (IFFilter.mk 200).String = "unknown IF filter" ∧
    (FCDPP.RFFilter scripted (start [[153, 1, 7]] 255)).1 = Exit.ok TRFE_145 := by
  obtain ⟨b, hb, hrun, _, hlabel, hknown⟩ :=
    (filter_accessors_round_trip scripted (start [[153, 1, 200]] 255) 65 [[153, 1, 200]] []
      [153, 1, 200] rfl rfl).1 rfl
  cases Option.some.inj (hb.symm.trans (rfl : _ = some (200 : Byte)))
  obtain ⟨c, hc, hrun2, _, hlabel2, hknown2⟩ :=
    (filter_accessors_round_trip scripted (start [[162, 1, 200]] 255) 65 [[162, 1, 200]] []
      [162, 1, 200] rfl rfl).2 rfl
  cases Option.some.inj (hc.symm.trans (rfl : _ = some (200 : Byte)))
  obtain ⟨e, he, hrun3, _⟩ :=
    (filter_accessors_round_trip scripted (start [[153, 1, 7]] 255) 65 [[153, 1, 7]] []
      [153, 1, 7] rfl rfl).1 rfl
  cases Option.some.inj (he.symm.trans (rfl : _ = some (7 : Byte)))
  refine ⟨by rw [hrun], hlabel.2 (hknown.2 (by decide)), by rw [hrun2],
    hlabel2.2 (hknown2.2 (by decide)), by rw [hrun3]; rfl⟩

/-- C10. When the device accepts the request and answers the read, `IFGain`
returns the byte `buf[2]` of the buffer left by the read as it is, for every
byte value, those above 59 included. -/
theorem IFGain_unmodified {σ : Type} (h : HidDevice σ) (p : Proc σ) (n : Nat)
    (d1 d2 : σ) (data : List Byte)
    (hlen : p.fcdpp.buf.length = 65)
    (hw : h.Write p.fcdpp.dev (request FCD_HID_CMD_GET_IF_GAIN) = (Except.ok n, d1))
    (hr : h.Read d1 65 = (Except.ok data, d2)) :
    ∃ b : Byte, (readInto (request FCD_HID_CMD_GET_IF_GAIN) data)[2]? = some b ∧
      FCDPP.IFGain h p
        = (Exit.ok b,
           { fcdpp := { dev := d2, buf := readInto (request FCD_HID_CMD_GET_IF_GAIN) data },
             trace := p.trace ++ [Event.devWrite (request FCD_HID_CMD_GET_IF_GAIN),
                                  Event.devRead 65] }) := by
  obtain ⟨b, hb⟩ := response_getElem? FCD_HID_CMD_GET_IF_GAIN data 2 (by omega)
  refine ⟨b, hb, ?_⟩
  unfold FCDPP.IFGain
  rw [prelude_ok h _ _ p n d1 d2 data hlen hw hr]
  simp only [bind, pure, getBuf, hb]

/-- Witness of C10 on the scripted device: the bytes 59, 60 and 255 are
returned as they are. -/
theorem IFGain_unmodified_witness :
    (FCDPP.IFGain scripted (start [[157, 1, 59]] 255)).1 = Exit.ok 59 ∧
    (FCDPP.IFGain scripted (start [[157, 1, 60]] 255)).1 = Exit.ok 60 ∧
    (FCDPP.IFGain scripted (start [[157, 1, 255]] 255)).1 = Exit.ok 255 := by
  have key : ∀ v : Byte, (FCDPP.IFGain scripted (start [[157, 1, v]] 255)).1 = Exit.ok v := by
    intro v
    obtain ⟨b, hb, hrun⟩ :=
      IFGain_unmodified scripted (start [[157, 1, v]] 255) 65 [[157, 1, v]] []
        [157, 1, v] rfl rfl rfl
    cases Option.some.inj (hb.symm.trans (rfl : _ = some v))
    rw [hrun]
  exact ⟨key 59, key 60, key 255⟩

/-- C11. When the enumeration for vendor `0x04d8` and product `0xfb31` finds
no device or more than one, `main` ends with the fatal error `could not open
device` and its whole trace is the enumeration: no open, no write, no read, no
printed line. An open is attempted exactly when one device is found. -/
theorem main_discovery {ι σ : Type} (host : HidHost ι σ) (h : HidDevice σ) :
    ((host.Enumerate 0x04d8 0xfb31).length ≠ 1 →
      main host h
        = (Exit.fatal "could not open device", [Event.enumerate 0x04d8 0xfb31])) ∧
    (Event.devOpen ∈ (main host h).2 ↔ (host.Enumerate 0x04d8 0xfb31).length = 1) := by
  refine ⟨main_not_one host h, ?_, ?_⟩
  · intro hmem
    by_contra hne
    rw [main_not_one host h hne] at hmem
    simp at hmem
  · intro hone
    obtain ⟨info, henum⟩ := List.length_eq_one.mp hone
    cases hopen : host.Open info with
    | error e =>
      rw [main_open_error host h info e henum hopen]
      simp
    | ok dev =>
      rw [main_run host h info dev henum hopen]
      obtain ⟨u, hu⟩ := report_extends h reportItems dev
        [Event.enumerate 0x04d8 0xfb31, Event.devOpen]
      generalize report h reportItems dev [Event.enumerate 0x04d8 0xfb31, Event.devOpen] = r
        at hu
      obtain ⟨x, t⟩ := r
      simp only at hu
      subst hu
      cases x <;> simp

/-- Witness of C11: with no device and with two devices found, `main` stops
after the enumeration; with one device it goes on to open it. -/
theorem main_discovery_witness :
    main (scriptedHost 0 goodResponses) scripted
      = (Exit.fatal "could not open device", [Event.enumerate 0x04d8 0xfb31]) ∧
    main (scriptedHost 2 goodResponses) scripted
      = (Exit.fatal "could not open device", [Event.enumerate 0x04d8 0xfb31]) ∧
    Event.devOpen ∈ (main (scriptedHost 1 goodResponses) scripted).2 :=
  ⟨(main_discovery (scriptedHost 0 goodResponses) scripted).1 (by decide),
   (main_discovery (scriptedHost 2 goodResponses) scripted).1 (by decide),
   (main_discovery (scriptedHost 1 goodResponses) scripted).2.2 (by decide)⟩

/-- C12. A failing `Write` makes `writeRead` end the process with that error
after the one write and without a read; a failing `Read` after an accepted
`Write` makes it end the process with that error after the one read. In
`main`, whichever exchange fails, after the completed items `done`: the
outcome is that fatal error and the trace ends with the failed attempt, so
that no value is decoded, no later exchange is made and no later line is
printed. -/
theorem transport_errors_fatal {ι σ : Type} (host : HidHost ι σ) (h : HidDevice σ) (info : ι)
    (dev d d2 : σ) (done later : List Item) (it : Item) (ls : List (List Byte)) (e : String)
    (henum : host.Enumerate 0x04d8 0xfb31 = [info])
    (hopen : host.Open info = Except.ok dev)
    (hsplit : reportItems = done ++ it :: later)
    (hans : answered h dev done = some (ls, d)) :
    (∀ (p : Proc σ) (d1 : σ),
      h.Write p.fcdpp.dev p.fcdpp.buf = (Except.error e, d1) →
      FCDPP.writeRead h p
        = (Exit.fatal e, { fcdpp := { dev := d1, buf := p.fcdpp.buf },
                           trace := p.trace ++ [Event.devWrite p.fcdpp.buf] })) ∧
    (∀ (p : Proc σ) (n : Nat) (d1 d3 : σ),
      h.Write p.fcdpp.dev p.fcdpp.buf = (Except.ok n, d1) →
      h.Read d1 p.fcdpp.buf.length = (Except.error e, d3) →
      FCDPP.writeRead h p
        = (Exit.fatal e, { fcdpp := { dev := d3, buf := p.fcdpp.buf },
                           trace := p.trace ++ [Event.devWrite p.fcdpp.buf,
                                                Event.devRead p.fcdpp.buf.length] })) ∧
    (exchange h d it.cmd = Answer.writeError e d2 →
      main host h
        = (Exit.fatal e, [Event.enumerate 0x04d8 0xfb31, Event.devOpen] ++ stretch done ls
            ++ [Event.devWrite (request it.cmd)])) ∧
    (exchange h d it.cmd = Answer.readError e d2 →
      main host h
        = (Exit.fatal e, [Event.enumerate 0x04d8 0xfb31, Event.devOpen] ++ stretch done ls
            ++ [Event.devWrite (request it.cmd), Event.devRead 65])) := by
  refine ⟨?_, ?_, ?_, ?_⟩
  · intro p d1 hw
    simp only [FCDPP.writeRead, hw]
  · intro p n d1 d3 hw hr
    simp only [FCDPP.writeRead, hw, hr]
  · exact main_write_fails host h info dev d d2 done later it ls e henum hopen hsplit hans
  · exact main_read_fails host h info dev d d2 done later it ls e henum hopen hsplit hans

/-- Witness of C12 on the staged device: the write of the third exchange is
refused, and in a second run the read of the second exchange fails. -/
theorem transport_errors_fatal_witness :
    main (stagedHost 1 [Reply.data (1 :: 1 :: ascii "FCDAPP 1.0"),
        Reply.data [102, 1, 0x10, 0x27, 0, 0], Reply.noWrite]) staged
      = (Exit.fatal "write failed",
         [Event.enumerate 0x04d8 0xfb31, Event.devOpen,
          Event.devWrite (request 1), Event.devRead 65,
          Event.stdout (ascii "      Query: FCDAPP 1.0\n"),
          Event.devWrite (request 102), Event.devRead 65,
          Event.stdout (ascii "       Freq: 10000 Hz\n"),
          Event.devWrite (request 150)]) ∧
    main (stagedHost 1 [Reply.data (1 :: 1 :: ascii "FCDAPP 1.0"), Reply.noRead]) staged
      = (Exit.fatal "read failed",
         [Event.enumerate 0x04d8 0xfb31, Event.devOpen,
          Event.devWrite (request 1), Event.devRead 65,
          Event.stdout (ascii "      Query: FCDAPP 1.0\n"),
          Event.devWrite (request 102), Event.devRead 65]) := by
  constructor
  · exact ((transport_errors_fatal
      (stagedHost 1 [Reply.data (1 :: 1 :: ascii "FCDAPP 1.0"),
        Reply.data [102, 1, 0x10, 0x27, 0, 0], Reply.noWrite]) staged () _
      [Reply.noWrite] [] (reportItems.take 2) (reportItems.drop 3) _
      [ascii "      Query: FCDAPP 1.0\n", ascii "       Freq: 10000 Hz\n"] "write failed"
      rfl rfl rfl rfl).2.2.1 rfl).trans rfl
  · exact ((transport_errors_fatal
      (stagedHost 1 [Reply.data (1 :: 1 :: ascii "FCDAPP 1.0"), Reply.noRead]) staged () _
      [Reply.noRead] [] (reportItems.take 1) (reportItems.drop 2) _
      [ascii "      Query: FCDAPP 1.0\n"] "read failed"
      rfl rfl rfl rfl).2.2.2 rfl).trans rfl

/-- C13, at the failing input. With one device, an accepted first write and a
failing first read, `main` ends through `log.Fatal` and `Close` is never
called, while the run in which all eight exchanges succeed calls it once. -/
theorem main_fatal_skips_Close :
    closes (main (scriptedHost 1 goodResponses) scripted).2 = 1 ∧
    main (scriptedHost 1 []) scripted
      = (Exit.fatal "no more data",
         [Event.enumerate 0x04d8 0xfb31, Event.devOpen,
          Event.devWrite (request FCD_HID_CMD_QUERY), Event.devRead 65]) ∧
    closes (main (scriptedHost 1 []) scripted).2 = 0 := by
  decide

/-- C14, amended. When one device is found and opened and the device answers
the eight exchanges in turn with the buffers `b1` to `b8`, the first of which
`Query` can decode, `main` returns after eight calls of `Printf`, in the order
Query, Freq, LNA gain, RF filter, Mixer gain, IF gain, IF filter, Bias tee,
whose texts make up the standard output; when the identity string has no line
feed, the standard output is exactly eight lines, and each line is the label
with its colon, right-aligned together in a field of 12 characters, then one
space, the value, and the unit ` Hz` on the Freq line and ` dB` on the IF gain
line. -/
theorem report_format {ι σ : Type} (host : HidHost ι σ) (h : HidDevice σ) (info : ι)
    (dev d1 d2 d3 d4 d5 d6 d7 d8 : σ) (b1 b2 b3 b4 b5 b6 b7 b8 : List Byte)
    (henum : host.Enumerate 0x04d8 0xfb31 = [info])
    (hopen : host.Open info = Except.ok dev)
    (h1 : exchange h dev FCD_HID_CMD_QUERY = Answer.response b1 d1)
    (hq : 2 ≤ IndexByte b1 0)
    (h2 : exchange h d1 FCD_HID_CMD_GET_FREQUENCY_HZ = Answer.response b2 d2)
    (h3 : exchange h d2 FCD_HID_CMD_GET_LNA_GAIN = Answer.response b3 d3)
    (h4 : exchange h d3 FCD_HID_CMD_GET_RF_FILTER = Answer.response b4 d4)
    (h5 : exchange h d4 FCD_HID_CMD_GET_MIXER_GAIN = Answer.response b5 d5)
    (h6 : exchange h d5 FCD_HID_CMD_GET_IF_GAIN = Answer.response b6 d6)
    (h7 : exchange h d6 FCD_HID_CMD_GET_IF_FILTER = Answer.response b7 d7)
    (h8 : exchange h d7 FCD_HID_CMD_GET_IF_GAIN = Answer.response b8 d8) :
    (main host h).1 = Exit.ok () ∧
    printed (main host h).2
      = [lineAsPrinted "Query" ((b1.take (IndexByte b1 0).toNat).drop 2) "",
         lineAsPrinted "Freq" (decimal (decodeFrequency b2)) " Hz",
         lineAsPrinted "LNA gain" (ascii (if b3.getD 2 0 = 1 then "true" else "false")) "",
         lineAsPrinted "RF filter" (ascii (RFFilter.mk (b4.getD 2 0)).String) "",
         lineAsPrinted "Mixer gain" (ascii (if b5.getD 2 0 = 1 then "true" else "false")) "",
         lineAsPrinted "IF gain" (decimal (b6.getD 2 0).val) " dB",
         lineAsPrinted "IF filter" (ascii (IFFilter.mk (b7.getD 2 0)).String) "",
         lineAsPrinted "Bias tee" (ascii (if b8.getD 2 0 = 1 then "true" else "false")) ""] ∧
    stdoutText (main host h).2 = (printed (main host h).2).flatten ∧
    ((10 : Byte) ∉ (b1.take (IndexByte b1 0).toNat).drop 2 →
      textLines (stdoutText (main host h).2)
        = [lineBody "Query" ((b1.take (IndexByte b1 0).toNat).drop 2) "",
           lineBody "Freq" (decimal (decodeFrequency b2)) " Hz",
           lineBody "LNA gain" (ascii (if b3.getD 2 0 = 1 then "true" else "false")) "",
           lineBody "RF filter" (ascii (RFFilter.mk (b4.getD 2 0)).String) "",
           lineBody "Mixer gain" (ascii (if b5.getD 2 0 = 1 then "true" else "false")) "",
           lineBody "IF gain" (decimal (b6.getD 2 0).val) " dB",
           lineBody "IF filter" (ascii (IFFilter.mk (b7.getD 2 0)).String) "",
           lineBody "Bias tee" (ascii (if b8.getD 2 0 = 1 then "true" else "false")) ""]) := by
  have hbool : ∀ b : List Byte,
      toString (decodeBool b) = if b.getD 2 0 = 1 then "true" else "false" := by
    intro b
    unfold decodeBool
    by_cases hb : b.getD 2 0 = 1
    · rw [if_pos hb, decide_eq_true hb]; rfl
    · rw [if_neg hb, decide_eq_false hb]; rfl
  have hans : answered h dev reportItems
      = some ([lineAsPrinted "Query" ((b1.take (IndexByte b1 0).toNat).drop 2) "",
         lineAsPrinted "Freq" (decimal (decodeFrequency b2)) " Hz",
         lineAsPrinted "LNA gain" (ascii (if b3.getD 2 0 = 1 then "true" else "false")) "",
         lineAsPrinted "RF filter" (ascii (RFFilter.mk (b4.getD 2 0)).String) "",
         lineAsPrinted "Mixer gain" (ascii (if b5.getD 2 0 = 1 then "true" else "false")) "",
         lineAsPrinted "IF gain" (decimal (b6.getD 2 0).val) " dB",
         lineAsPrinted "IF filter" (ascii (IFFilter.mk (b7.getD 2 0)).String) "",
         lineAsPrinted "Bias tee" (ascii (if b8.getD 2 0 = 1 then "true" else "false")) ""],
        d8) := by
    simp only [reportItems, answered, h1, h2, h3, h4, h5, h6, h7, h8, decodeQuery, hq, if_true,
      Exit.map, hbool]
  have hframe := frame_text reportItems _ [Event.devClose] (answered_length h _ _ _ _ hans)
    rfl rfl
  rw [main_all_answered host h info dev d8 _ henum hopen hans]
  refine ⟨rfl, hframe.1, ?_, ?_⟩
  · show stdoutText _ = (printed _).flatten
    rw [hframe.1, hframe.2]
  · intro hnl
    show textLines (stdoutText _) = _
    rw [hframe.2, textLines_flatten]
    · simp only [List.map_cons, List.map_nil, lineAsPrinted_body, List.dropLast_concat]
    · have hbtf : ∀ b : List Byte,
          (10 : Byte) ∉ ascii (if b.getD 2 0 = 1 then "true" else "false") := by
        intro b
        rw [← hbool b]
        exact bool_no_lf _
      intro l hl
      simp only [List.mem_cons, List.mem_singleton, List.mem_nil_iff, or_false] at hl
      rcases hl with rfl | rfl | rfl | rfl | rfl | rfl | rfl | rfl
      · exact lineAsPrinted_oneLine _ _ _ (by decide) hnl (by decide)
      · exact lineAsPrinted_oneLine _ _ _ (by decide) (decimal_no_lf _) (by decide)
      · exact lineAsPrinted_oneLine _ _ _ (by decide) (hbtf _) (by decide)
      · exact lineAsPrinted_oneLine _ _ _ (by decide) (RFFilter_String_no_lf _) (by decide)
      · exact lineAsPrinted_oneLine _ _ _ (by decide) (hbtf _) (by decide)
      · exact lineAsPrinted_oneLine _ _ _ (by decide) (decimal_no_lf _) (by decide)
      · exact lineAsPrinted_oneLine _ _ _ (by decide) (IFFilter_String_no_lf _) (by decide)
      · exact lineAsPrinted_oneLine _ _ _ (by decide) (hbtf _) (by decide)

/-- Witness of the amended C14 on the scripted device with eight well-formed
responses: the eight lines as they appear on the standard output. -/
theorem report_format_witness :
    (main (scriptedHost 1 goodResponses) scripted).1 = Exit.ok () ∧
    textLines (stdoutText (main (scriptedHost 1 goodResponses) scripted).2)
      = [ascii "      Query: FCDAPP 1.0",
         ascii "       Freq: 10000 Hz",
         ascii "   LNA gain: true",
         ascii "  RF filter: 145MHz",
         ascii " Mixer gain: false",
         ascii "    IF gain: 20 dB",
         ascii "  IF filter: unknown IF filter",
         ascii "   Bias tee: false"] := by
  have hw := report_format (scriptedHost 1 goodResponses) scripted () goodResponses
    (goodResponses.drop 1) (goodResponses.drop 2) (goodResponses.drop 3)
    (goodResponses.drop 4) (goodResponses.drop 5) (goodResponses.drop 6)
    (goodResponses.drop 7) []
    (padded (1 :: 1 :: ascii "FCDAPP 1.0")) (padded [102, 1, 0x10, 0x27, 0, 0])
    (padded [150, 1, 1]) (padded [153, 1, 7]) (padded [154, 1, 0]) (padded [157, 1, 20])
    (padded [162, 1, 200]) (padded [157, 1, 20])
    rfl rfl rfl (by decide) rfl rfl rfl rfl rfl rfl rfl
  exact ⟨hw.1, (hw.2.2.2 (by decide)).trans (by decide)⟩

/-- C14 as stated fails, twice. In a run in which all eight exchanges succeed,
the first line printed has six spaces before `Query:`, so that label and colon
fill 12 characters, while the label right-aligned in a field of 12 characters
and then followed by a colon would have seven. And in a run in which all eight
exchanges succeed with the identity string `A`, line feed, `B`, the standard
output has nine lines, the second of which is `B`. -/
theorem report_format_counterexample :
    (main (scriptedHost 1 goodResponses) scripted).1 = Exit.ok () ∧
    (printed (main (scriptedHost 1 goodResponses) scripted).2)[0]?
      = some (ascii "      Query: FCDAPP 1.0\n") ∧
    lineAsSpecified "Query" (ascii "FCDAPP 1.0") "" = ascii "       Query: FCDAPP 1.0\n" ∧
    (printed (main (scriptedHost 1 goodResponses) scripted).2)[0]?
      ≠ some (lineAsSpecified "Query" (ascii "FCDAPP 1.0") "") ∧
    (main (scriptedHost 1 twoLineIdentity) scripted).1 = Exit.ok () ∧
    (textLines (stdoutText (main (scriptedHost 1 twoLineIdentity) scripted).2)).length = 9 ∧
    (textLines (stdoutText (main (scriptedHost 1 twoLineIdentity) scripted).2)).take 3
      = [ascii "      Query: A", ascii "B", ascii "       Freq: 10000 Hz"] := by
  decide

/-- C15, amended. For every run of `main`, the standard output is the texts
printed for the exchanges completed before the run ended, in order: nothing
after a discovery error or an open error; the texts of the completed items
`done`, fewer than eight, when the write or the read of the next exchange
fails; nothing when a decoding panics, which only the first can; the eight
texts when the eight exchanges are answered. When the identity string has no
line feed, each text is one line, so that the standard output has as many
lines as exchanges were completed. Every run is one of these cases. -/
theorem printed_lines_by_outcome {ι σ : Type} (host : HidHost ι σ) (h : HidDevice σ) :
    ((host.Enumerate 0x04d8 0xfb31).length ≠ 1 →
      (main host h).1 = Exit.fatal "could not open device" ∧
      printed (main host h).2 = [] ∧ stdoutText (main host h).2 = []) ∧
    (∀ (info : ι) (e : String), host.Enumerate 0x04d8 0xfb31 = [info] →
      host.Open info = Except.error e →
      (main host h).1 = Exit.fatal e ∧ printed (main host h).2 = [] ∧
      stdoutText (main host h).2 = []) ∧
    (∀ (info : ι) (dev d d2 : σ) (done later : List Item) (it : Item)
        (ls : List (List Byte)) (e : String),
      host.Enumerate 0x04d8 0xfb31 = [info] → host.Open info = Except.ok dev →
      reportItems = done ++ it :: later → answered h dev done = some (ls, d) →
      (exchange h d it.cmd = Answer.writeError e d2 ∨
        exchange h d it.cmd = Answer.readError e d2) →
      (main host h).1 = Exit.fatal e ∧ printed (main host h).2 = ls ∧
        stdoutText (main host h).2 = ls.flatten ∧
        ls.length = done.length ∧ done.length < 8 ∧
        (identityOnOneLine h dev →
          textLines (stdoutText (main host h).2) = ls.map List.dropLast)) ∧
    (∀ (info : ι) (dev d d2 : σ) (done later : List Item) (it : Item)
        (ls : List (List Byte)) (buf : List Byte) (e : String),
      host.Enumerate 0x04d8 0xfb31 = [info] → host.Open info = Except.ok dev →
      reportItems = done ++ it :: later → answered h dev done = some (ls, d) →
      exchange h d it.cmd = Answer.response buf d2 → it.line buf = Exit.panic e →
      (main host h).1 = Exit.panic e ∧ done = [] ∧ printed (main host h).2 = [] ∧
      stdoutText (main host h).2 = []) ∧
    (∀ (info : ι) (dev d : σ) (ls : List (List Byte)),
      host.Enumerate 0x04d8 0xfb31 = [info] → host.Open info = Except.ok dev →
      answered h dev reportItems = some (ls, d) →
      (main host h).1 = Exit.ok () ∧ printed (main host h).2 = ls ∧
        stdoutText (main host h).2 = ls.flatten ∧ ls.length = 8 ∧
        (identityOnOneLine h dev →
          textLines (stdoutText (main host h).2) = ls.map List.dropLast)) ∧
    ((host.Enumerate 0x04d8 0xfb31).length ≠ 1 ∨
     (∃ (info : ι) (e : String), host.Enumerate 0x04d8 0xfb31 = [info] ∧
        host.Open info = Except.error e) ∨
     (∃ (info : ι) (dev d d2 : σ) (done later : List Item) (it : Item)
        (ls : List (List Byte)) (e : String),
        host.Enumerate 0x04d8 0xfb31 = [info] ∧ host.Open info = Except.ok dev ∧
        reportItems = done ++ it :: later ∧ answered h dev done = some (ls, d) ∧
        (exchange h d it.cmd = Answer.writeError e d2 ∨
          exchange h d it.cmd = Answer.readError e d2)) ∨
     (∃ (info : ι) (dev d d2 : σ) (done later : List Item) (it : Item)
        (ls : List (List Byte)) (buf : List Byte) (e : String),
        host.Enumerate 0x04d8 0xfb31 = [info] ∧ host.Open info = Except.ok dev ∧
        reportItems = done ++ it :: later ∧ answered h dev done = some (ls, d) ∧
        exchange h d it.cmd = Answer.response buf d2 ∧ it.line buf = Exit.panic e) ∨
     (∃ (info : ι) (dev d : σ) (ls : List (List Byte)),
        host.Enumerate 0x04d8 0xfb31 = [info] ∧ host.Open info = Except.ok dev ∧
        answered h dev reportItems = some (ls, d))) := by
  refine ⟨?_, ?_, ?_, ?_, ?_, ?_⟩
  · intro hne
    rw [main_not_one host h hne]
    exact ⟨rfl, rfl, rfl⟩
  · intro info e henum hopen
    rw [main_open_error host h info e henum hopen]
    exact ⟨rfl, rfl, rfl⟩
  · intro info dev d d2 done later it ls e henum hopen hsplit hans hfail
    have hlen := answered_length h done dev d ls hans
    have hshort : done.length < 8 := by
      have h8 : reportItems.length = 8 := rfl
      rw [hsplit, List.length_append, List.length_cons] at h8
      omega
    have hone : identityOnOneLine h dev →
        textLines ls.flatten = ls.map List.dropLast := fun hid =>
      textLines_flatten ls (done_oneLine h dev d done (it :: later) ls hsplit hans hid)
    rcases hfail with hfail | hfail
    · have hframe := frame_text done ls [Event.devWrite (request it.cmd)] hlen rfl rfl
      rw [main_write_fails host h info dev d d2 done later it ls e henum hopen hsplit hans
        hfail]
      refine ⟨rfl, hframe.1, hframe.2, hlen, hshort, ?_⟩
      intro hid
      show textLines (stdoutText _) = _
      rw [hframe.2, hone hid]
    · have hframe := frame_text done ls
        [Event.devWrite (request it.cmd), Event.devRead 65] hlen rfl rfl
      rw [main_read_fails host h info dev d d2 done later it ls e henum hopen hsplit hans
        hfail]
      refine ⟨rfl, hframe.1, hframe.2, hlen, hshort, ?_⟩
      intro hid
      show textLines (stdoutText _) = _
      rw [hframe.2, hone hid]
  · intro info dev d d2 done later it ls buf e henum hopen hsplit hans hresp hline
    have hdone : done = [] := by
      cases done with
      | nil => rfl
      | cons q rest =>
        exfalso
        have hit : it ∈ reportItems.tail := by
          rw [hsplit]
          simp
        obtain ⟨l, hl⟩ := tail_items_ok it hit buf
        rw [hline] at hl
        cases hl
    subst hdone
    have hls : ls = [] := by
      simp only [answered, Option.some.injEq, Prod.mk.injEq] at hans
      exact hans.1.symm
    subst hls
    rw [main_decode_panics host h info dev d d2 [] later it [] buf e henum hopen hsplit hans
      hresp hline]
    exact ⟨rfl, rfl, rfl, rfl⟩
  · intro info dev d ls henum hopen hans
    have hlen := answered_length h reportItems dev d ls hans
    have hframe := frame_text reportItems ls [Event.devClose] hlen rfl rfl
    rw [main_all_answered host h info dev d ls henum hopen hans]
    refine ⟨rfl, hframe.1, hframe.2, hlen, ?_⟩
    intro hid
    show textLines (stdoutText _) = _
    rw [hframe.2]
    exact textLines_flatten ls
      (done_oneLine h dev d reportItems [] ls (List.append_nil _).symm hans hid)
  · by_cases hone : (host.Enumerate 0x04d8 0xfb31).length = 1
    · right
      obtain ⟨info, henum⟩ := List.length_eq_one.mp hone
      cases hopen : host.Open info with
      | error e => exact Or.inl ⟨info, e, henum, hopen⟩
      | ok dev =>
        right
        rcases answered_or_stops h reportItems dev with
          ⟨ls, d, hans⟩ | ⟨done, later, it, ls, d, hsplit, hans, hstop⟩
        · exact Or.inr (Or.inr ⟨info, dev, d, ls, henum, hopen, hans⟩)
        · rcases hstop with ⟨e, d2, hw⟩ | ⟨e, d2, hr⟩ | ⟨buf, d2, hresp, hnot⟩
          · exact Or.inl ⟨info, dev, d, d2, done, later, it, ls, e, henum, hopen, hsplit, hans,
              Or.inl hw⟩
          · exact Or.inl ⟨info, dev, d, d2, done, later, it, ls, e, henum, hopen, hsplit, hans,
              Or.inr hr⟩
          · right; left
            have hit : it ∈ reportItems := by
              rw [hsplit]
              simp
            cases hline : it.line buf with
            | ok l => exact absurd hline (hnot l)
            | fatal e => exact absurd hline (reportItems_line_not_fatal it hit buf e)
            | panic e =>
              exact ⟨info, dev, d, d2, done, later, it, ls, buf, e, henum, hopen, hsplit, hans,
                hresp, hline⟩
    · exact Or.inl hone

/-- Witness of the amended C15 on the scripted device with two responses: the
read of the third exchange fails and the two lines of the first two exchanges
are the standard output. -/
theorem printed_lines_by_outcome_witness :
    (main (scriptedHost 1 (goodResponses.take 2)) scripted).1 = Exit.fatal "no more data" ∧
    printed (main (scriptedHost 1 (goodResponses.take 2)) scripted).2
      = [ascii "      Query: FCDAPP 1.0\n", ascii "       Freq: 10000 Hz\n"] ∧
    textLines (stdoutText (main (scriptedHost 1 (goodResponses.take 2)) scripted).2)
      = [ascii "      Query: FCDAPP 1.0", ascii "       Freq: 10000 Hz"] := by
  have hid : identityOnOneLine scripted (goodResponses.take 2) := by
    intro buf d1 s hx hs
    have hx2 : exchange scripted (goodResponses.take 2) FCD_HID_CMD_QUERY
        = Answer.response (padded (1 :: 1 :: ascii "FCDAPP 1.0")) (goodResponses.drop 1
            |>.take 1) := rfl
    rw [hx2] at hx
    injection hx with hb _
    subst hb
    have hs2 : decodeQuery (padded (1 :: 1 :: ascii "FCDAPP 1.0"))
        = Exit.ok (ascii "FCDAPP 1.0") := by decide
    rw [hs2] at hs
    injection hs with hs3
    subst hs3
    decide
  have hw := (printed_lines_by_outcome (scriptedHost 1 (goodResponses.take 2)) scripted).2.2.1
    () (goodResponses.take 2) [] [] (reportItems.take 2) (reportItems.drop 3) _
    [ascii "      Query: FCDAPP 1.0\n", ascii "       Freq: 10000 Hz\n"] "no more data"
    rfl rfl rfl rfl (Or.inr rfl)
  exact ⟨hw.1, hw.2.1, (hw.2.2.2.2.2 hid).trans (by decide)⟩

/-- C15 as stated fails, twice. When the read of the third exchange fails, two
lines have been printed, which is neither no line nor the report of eight
lines. And when the identity string is `A`, line feed, `B` and the read of the
second exchange fails, the standard output has two lines after one completed
exchange. -/
theorem printed_lines_counterexample :
    (main (scriptedHost 1 (goodResponses.take 2)) scripted).1 = Exit.fatal "no more data" ∧
    printed (main (scriptedHost 1 (goodResponses.take 2)) scripted).2
      = [ascii "      Query: FCDAPP 1.0\n", ascii "       Freq: 10000 Hz\n"] ∧
    printed (main (scriptedHost 1 (goodResponses.take 2)) scripted).2 ≠ [] ∧
    (printed (main (scriptedHost 1 (goodResponses.take 2)) scripted).2).length ≠ 8 ∧
    (printed (main (scriptedHost 1 goodResponses) scripted).2).length = 8 ∧
    textLines (stdoutText (main (scriptedHost 1 (goodResponses.take 2)) scripted).2)
      = [ascii "      Query: FCDAPP 1.0", ascii "       Freq: 10000 Hz"] ∧
    (main (scriptedHost 1 (twoLineIdentity.take 1)) scripted).1 = Exit.fatal "no more data" ∧
    textLines (stdoutText (main (scriptedHost 1 (twoLineIdentity.take 1)) scripted).2)
      = [ascii "      Query: A", ascii "B"] := by
  decide

/-- C16. When the device answers the identity request and the read leaves
`buf` in the 65-byte buffer, with `n` the index of the first zero byte of the
whole of `buf`: `Query` returns the bytes at the indices 2 up to `n` excluded
when `n` is at least 2 (no byte when `n = 2`), and it panics on the slice
bounds exactly when a zero byte is at index 0 or 1 or `buf` has no zero
byte. -/
theorem Query_scans_from_start {σ : Type} (h : HidDevice σ) (p : Proc σ) (buf : List Byte)
    (d2 : σ) (hlen : p.fcdpp.buf.length = 65)
    (hx : exchange h p.fcdpp.dev FCD_HID_CMD_QUERY = Answer.response buf d2) :
    (FCDPP.Query h p).2.fcdpp.buf = buf ∧ buf.length = 65 ∧
    (∀ n : Nat, buf[n]? = some 0 → (∀ i, i < n → buf[i]? ≠ some 0) → 2 ≤ n →
      (FCDPP.Query h p).1 = Exit.ok ((buf.take n).drop 2)) ∧
    (buf[2]? = some 0 → buf[0]? ≠ some 0 → buf[1]? ≠ some 0 →
      (FCDPP.Query h p).1 = Exit.ok []) ∧
    ((FCDPP.Query h p).1 = Exit.panic "slice bounds out of range" ↔
      (buf[0]? = some 0 ∨ buf[1]? = some 0 ∨ 0 ∉ buf)) := by
  have hbl := exchange_response_length h _ _ _ _ hx
  have hrun : FCDPP.Query h p
      = (decodeQuery buf, Proc.mk (FCDPP.mk d2 buf)
           (p.trace ++ [Event.devWrite (request FCD_HID_CMD_QUERY), Event.devRead 65])) := by
    rw [Query_run h p hlen]
    simp only [accessorRun, hx]
  have hfirst : ∀ n : Nat, buf[n]? = some 0 → (∀ i, i < n → buf[i]? ≠ some 0) → 2 ≤ n →
      decodeQuery buf = Exit.ok ((buf.take n).drop 2) := by
    intro n hn hbefore h2
    have hidx := IndexByte_first buf 0 n hn hbefore
    unfold decodeQuery
    rw [hidx, if_pos (by omega), Int.toNat_ofNat]
  rw [hrun]
  refine ⟨rfl, hbl, hfirst, ?_, ?_⟩
  · intro hz h0 h1
    have := hfirst 2 hz (by
      intro i hi
      rcases (by omega : i = 0 ∨ i = 1) with rfl | rfl
      · exact h0
      · exact h1) (Nat.le_refl 2)
    rw [this]
    simp
  · show decodeQuery buf = _ ↔ _
    have hge := IndexByte_ge buf 0
    have hnone := IndexByte_neg_iff buf 0
    constructor
    · intro hpanic
      have hsmall : ¬ (2 ≤ IndexByte buf 0) := by
        intro h2
        unfold decodeQuery at hpanic
        rw [if_pos h2] at hpanic
        cases hpanic
      by_cases hneg : IndexByte buf 0 < 0
      · exact Or.inr (Or.inr (hnone.mp hneg))
      · obtain ⟨pre, rest, hb, _, hidx⟩ := IndexByte_split buf 0 (by omega)
        have hpl : pre.length = 0 ∨ pre.length = 1 := by omega
        rcases hpl with hp0 | hp1
        · left
          rw [hb, List.length_eq_zero.mp hp0]
          simp
        · right; left
          obtain ⟨x, hx1⟩ := List.length_eq_one.mp hp1
          rw [hb, hx1]
          simp
    · intro hcases
      have hsmall : ¬ (2 ≤ IndexByte buf 0) := by
        rcases hcases with h0 | h1 | hno
        · have := IndexByte_first buf 0 0 h0 (by intro i hi; omega)
          omega
        · by_cases h0 : buf[0]? = some 0
          · have := IndexByte_first buf 0 0 h0 (by intro i hi; omega)
            omega
          · have := IndexByte_first buf 0 1 h1 (by
              intro i hi
              rcases (by omega : i = 0) with rfl
              exact h0)
            omega
        · have := hnone.mpr hno
          omega
      unfold decodeQuery
      rw [if_neg hsmall]

/-- Witness of C16 on the scripted device: a first zero byte at index 5
gives the three bytes before it, at index 2 the empty string, and at index 1,
at index 0 or nowhere a panic. -/
theorem Query_scans_from_start_witness :
    (FCDPP.Query scripted (start [padded [1, 1, 70, 67, 68]] 255)).1 = Exit.ok [70, 67, 68] ∧
    (FCDPP.Query scripted (start [padded [1, 1]] 255)).1 = Exit.ok [] ∧
    (FCDPP.Query scripted (start [padded [1]] 255)).1
      = Exit.panic "slice bounds out of range" ∧
    (FCDPP.Query scripted (start [padded [0, 1, 70]] 255)).1
      = Exit.panic "slice bounds out of range" ∧
    (FCDPP.Query scripted (start [List.replicate 65 7] 255)).1
      = Exit.panic "slice bounds out of range" := by
  refine ⟨?_, ?_, ?_, ?_, ?_⟩
  · exact ((Query_scans_from_start scripted (start [padded [1, 1, 70, 67, 68]] 255)
      (padded [1, 1, 70, 67, 68]) [] rfl rfl).2.2.1 5 (by decide) (by decide)
      (by decide)).trans (by decide)
  · exact (Query_scans_from_start scripted (start [padded [1, 1]] 255)
      (padded [1, 1]) [] rfl rfl).2.2.2.1 (by decide) (by decide) (by decide)
  · exact (Query_scans_from_start scripted (start [padded [1]] 255)
      (padded [1]) [] rfl rfl).2.2.2.2.mpr (Or.inr (Or.inl (by decide)))
  · exact (Query_scans_from_start scripted (start [padded [0, 1, 70]] 255)
      (padded [0, 1, 70]) [] rfl rfl).2.2.2.2.mpr (Or.inl (by decide))
  · exact (Query_scans_from_start scripted (start [List.replicate 65 7] 255)
      (List.replicate 65 7) [] rfl rfl).2.2.2.2.mpr (Or.inr (Or.inr (by decide)))

/-- C17. For a session with a 65-byte buffer and any other 65-byte content
`other` put in its place, with the same device and device state, each of the
eight accessors has the same outcome, the same final state and the same
trace, hence the same request and the same result, however many bytes the
read stores; and the buffer has length 65 after each accessor. -/
theorem accessors_independent {σ : Type} (h : HidDevice σ) (p : Proc σ) (other : List Byte)
    (hlen : p.fcdpp.buf.length = 65) (hother : other.length = 65) :
    (FCDPP.Query h (Proc.mk (FCDPP.mk p.fcdpp.dev other) p.trace) = FCDPP.Query h p ∧
      (FCDPP.Query h p).2.fcdpp.buf.length = 65) ∧
    (FCDPP.Frequency h (Proc.mk (FCDPP.mk p.fcdpp.dev other) p.trace) = FCDPP.Frequency h p ∧
      (FCDPP.Frequency h p).2.fcdpp.buf.length = 65) ∧
    (FCDPP.LNAGain h (Proc.mk (FCDPP.mk p.fcdpp.dev other) p.trace) = FCDPP.LNAGain h p ∧
      (FCDPP.LNAGain h p).2.fcdpp.buf.length = 65) ∧
    (FCDPP.RFFilter h (Proc.mk (FCDPP.mk p.fcdpp.dev other) p.trace) = FCDPP.RFFilter h p ∧
      (FCDPP.RFFilter h p).2.fcdpp.buf.length = 65) ∧
    (FCDPP.MixerGain h (Proc.mk (FCDPP.mk p.fcdpp.dev other) p.trace) = FCDPP.MixerGain h p ∧
      (FCDPP.MixerGain h p).2.fcdpp.buf.length = 65) ∧
    (FCDPP.IFGain h (Proc.mk (FCDPP.mk p.fcdpp.dev other) p.trace) = FCDPP.IFGain h p ∧
      (FCDPP.IFGain h p).2.fcdpp.buf.length = 65) ∧
    (FCDPP.IFFilter h (Proc.mk (FCDPP.mk p.fcdpp.dev other) p.trace) = FCDPP.IFFilter h p ∧
      (FCDPP.IFFilter h p).2.fcdpp.buf.length = 65) ∧
    (FCDPP.BiasTee h (Proc.mk (FCDPP.mk p.fcdpp.dev other) p.trace) = FCDPP.BiasTee h p ∧
      (FCDPP.BiasTee h p).2.fcdpp.buf.length = 65) := by
  refine ⟨⟨?_, ?_⟩, ⟨?_, ?_⟩, ⟨?_, ?_⟩, ⟨?_, ?_⟩, ⟨?_, ?_⟩, ⟨?_, ?_⟩, ⟨?_, ?_⟩, ⟨?_, ?_⟩⟩
  · rw [Query_run h _ hother, Query_run h p hlen]; rfl
  · rw [Query_run h p hlen]; exact accessorRun_buf_length h _ _ p
  · rw [Frequency_run h _ hother, Frequency_run h p hlen]; rfl
  · rw [Frequency_run h p hlen]; exact accessorRun_buf_length h _ _ p
  · rw [LNAGain_run h _ hother, LNAGain_run h p hlen]; rfl
  · rw [LNAGain_run h p hlen]; exact accessorRun_buf_length h _ _ p
  · rw [RFFilter_run h _ hother, RFFilter_run h p hlen]; rfl
  · rw [RFFilter_run h p hlen]; exact accessorRun_buf_length h _ _ p
  · rw [MixerGain_run h _ hother, MixerGain_run h p hlen]; rfl
  · rw [MixerGain_run h p hlen]; exact accessorRun_buf_length h _ _ p
  · rw [IFGain_run h _ hother, IFGain_run h p hlen]; rfl
  · rw [IFGain_run h p hlen]; exact accessorRun_buf_length h _ _ p
  · rw [IFFilter_run h _ hother, IFFilter_run h p hlen]; rfl
  · rw [IFFilter_run h p hlen]; exact accessorRun_buf_length h _ _ p
  · rw [BiasTee_run h _ hother, BiasTee_run h p hlen]; rfl
  · rw [BiasTee_run h p hlen]; exact accessorRun_buf_length h _ _ p

/-- Witness of C17 on the scripted device, with a read that stores three
bytes only: a buffer full of `0xFF` and a buffer full of `0x2A` give the same
run of `IFGain`, and of `Query` with a response of five bytes. -/
theorem accessors_independent_witness :
    FCDPP.IFGain scripted (start [[157, 1, 9]] 42) = FCDPP.IFGain scripted (start [[157, 1, 9]] 255) ∧
    (FCDPP.IFGain scripted (start [[157, 1, 9]] 255)).2.fcdpp.buf.length = 65 ∧
    FCDPP.Query scripted (start [[1, 1, 70, 67, 68]] 42)
      = FCDPP.Query scripted (start [[1, 1, 70, 67, 68]] 255) :=
  ⟨(accessors_independent scripted (start [[157, 1, 9]] 255) (List.replicate 65 42)
      rfl rfl).2.2.2.2.2.1.1,
   (accessors_independent scripted (start [[157, 1, 9]] 255) (List.replicate 65 42)
      rfl rfl).2.2.2.2.2.1.2,
   (accessors_independent scripted (start [[1, 1, 70, 67, 68]] 255) (List.replicate 65 42)
      rfl rfl).1.1⟩

/-- C18. Whenever `Query`, run from a 65-byte buffer, returns a string, that
string has no zero byte, has at most 62 bytes, and the bytes of the buffer
from offset 2 are that string, then a zero byte, then the rest. -/
theorem Query_result_shape {σ : Type} (h : HidDevice σ) (p : Proc σ) (s : List Byte)
    (hlen : p.fcdpp.buf.length = 65)
    (hres : (FCDPP.Query h p).1 = Exit.ok s) :
    (∀ b ∈ s, b ≠ 0) ∧ s.length ≤ 62 ∧
    ∃ rest : List Byte, (FCDPP.Query h p).2.fcdpp.buf.drop 2 = s ++ 0 :: rest := by
  rw [Query_run h p hlen] at hres ⊢
  unfold accessorRun at hres ⊢
  cases hx : exchange h p.fcdpp.dev FCD_HID_CMD_QUERY with
  | writeError e d => rw [hx] at hres; cases hres
  | readError e d => rw [hx] at hres; cases hres
  | response buf d =>
    have hbl := exchange_response_length h _ _ _ _ hx
    rw [hx] at hres
    simp only at hres ⊢
    unfold decodeQuery at hres
    by_cases h2 : 2 ≤ IndexByte buf 0
    · rw [if_pos h2] at hres
      obtain ⟨pre, rest, hb, hpre, hidx⟩ := IndexByte_split buf 0 (by omega)
      have hs : s = pre.drop 2 := by
        have := Exit.ok.inj hres
        rw [← this, hidx, Int.toNat_ofNat, hb, List.take_left]
      have hpl : 2 ≤ pre.length := by omega
      have hlen65 : pre.length + (rest.length + 1) = 65 := by
        rw [hb, List.length_append, List.length_cons] at hbl
        exact hbl
      refine ⟨?_, ?_, rest, ?_⟩
      · intro b hbs
        rw [hs] at hbs
        exact hpre b (List.mem_of_mem_drop hbs)
      · rw [hs, List.length_drop]
        omega
      · rw [hs, hb, List.drop_append_of_le_length hpl]
    · rw [if_neg h2] at hres
      cases hres

/-- Witness of C18 on the scripted device: the identity string `FCDAPP 1.0`
is returned, with no zero byte and ten bytes long. -/
theorem Query_result_shape_witness :
    (∀ b ∈ ascii "FCDAPP 1.0", b ≠ 0) ∧ (ascii "FCDAPP 1.0").length ≤ 62 ∧
    ∃ rest : List Byte,
      (FCDPP.Query scripted (start [1 :: 1 :: ascii "FCDAPP 1.0"] 255)).2.fcdpp.buf.drop 2
        = ascii "FCDAPP 1.0" ++ 0 :: rest :=
  Query_result_shape scripted (start [1 :: 1 :: ascii "FCDAPP 1.0"] 255)
    (ascii "FCDAPP 1.0") rfl (by decide)

/-- C19. For two runs of `Frequency` in which the device answers, leaving
`buf` and `buf2` in the buffer, the two results are equal exactly when `buf`
and `buf2` have the same bytes at the offsets 2, 3, 4 and 5; and a buffer
whose bytes at those offsets are `f mod 256`, `(f / 2^8) mod 256`,
`(f / 2^16) mod 256`, `(f / 2^24) mod 256` for an `f` below `2^32` decodes to
`f`, whatever the other bytes are. -/
theorem Frequency_loses_nothing {σ : Type} (h h2 : HidDevice σ) (p p2 : Proc σ)
    (buf buf2 : List Byte) (d d2 : σ)
    (hlen : p.fcdpp.buf.length = 65) (hlen2 : p2.fcdpp.buf.length = 65)
    (hx : exchange h p.fcdpp.dev FCD_HID_CMD_GET_FREQUENCY_HZ = Answer.response buf d)
    (hx2 : exchange h2 p2.fcdpp.dev FCD_HID_CMD_GET_FREQUENCY_HZ = Answer.response buf2 d2) :
    ((FCDPP.Frequency h p).1 = (FCDPP.Frequency h2 p2).1 ↔
      (buf.drop 2).take 4 = (buf2.drop 2).take 4) ∧
    (∀ f : Nat, f < 2 ^ 32 →
      ((buf.drop 2).take 4).map Fin.val
        = [f % 256, f / 2 ^ 8 % 256, f / 2 ^ 16 % 256, f / 2 ^ 24 % 256] →
      (FCDPP.Frequency h p).1 = Exit.ok f) := by
  have hbl := exchange_response_length h _ _ _ _ hx
  have hbl2 := exchange_response_length h2 _ _ _ _ hx2
  have hrun : (FCDPP.Frequency h p).1 = Exit.ok (decodeFrequency buf) := by
    rw [Frequency_run h p hlen]
    simp only [accessorRun, hx]
  have hrun2 : (FCDPP.Frequency h2 p2).1 = Exit.ok (decodeFrequency buf2) := by
    rw [Frequency_run h2 p2 hlen2]
    simp only [accessorRun, hx2]
  rw [hrun, hrun2]
  refine ⟨?_, ?_⟩
  · rw [← decodeFrequency_inj buf buf2 hbl hbl2]
    constructor
    · intro heq; exact Exit.ok.inj heq
    · intro heq; rw [heq]
  · intro f hf hb
    rw [decodeFrequency_of_bytes buf hbl f hf hb]

/-- Witness of C19 on the scripted device: two responses that differ outside
the offsets 2 to 5 decode to the same frequency, two that differ at offset 3
do not, and the bytes of 145800000 decode to 145800000. -/
theorem Frequency_loses_nothing_witness :
    (FCDPP.Frequency scripted (start [[102, 1, 0x40, 0xBB, 0xB0, 0x08, 9, 9]] 255)).1
      = (FCDPP.Frequency scripted (start [[0, 0, 0x40, 0xBB, 0xB0, 0x08]] 0)).1 ∧
    (FCDPP.Frequency scripted (start [[102, 1, 0x40, 0xBB, 0xB0, 0x08]] 255)).1
      ≠ (FCDPP.Frequency scripted (start [[102, 1, 0x40, 0xBC, 0xB0, 0x08]] 255)).1 ∧
    (FCDPP.Frequency scripted (start [[102, 1, 0x40, 0xBB, 0xB0, 0x08]] 255)).1
      = Exit.ok 145800000 :=
  ⟨(Frequency_loses_nothing scripted scripted
      (start [[102, 1, 0x40, 0xBB, 0xB0, 0x08, 9, 9]] 255)
      (start [[0, 0, 0x40, 0xBB, 0xB0, 0x08]] 0)
      (padded [102, 1, 0x40, 0xBB, 0xB0, 0x08, 9, 9]) (padded [0, 0, 0x40, 0xBB, 0xB0, 0x08])
      [] [] rfl rfl rfl rfl).1.mpr (by decide),
   fun heq => absurd ((Frequency_loses_nothing scripted scripted
      (start [[102, 1, 0x40, 0xBB, 0xB0, 0x08]] 255)
      (start [[102, 1, 0x40, 0xBC, 0xB0, 0x08]] 255)
      (padded [102, 1, 0x40, 0xBB, 0xB0, 0x08]) (padded [102, 1, 0x40, 0xBC, 0xB0, 0x08])
      [] [] rfl rfl rfl rfl).1.mp heq) (by decide),
   (Frequency_loses_nothing scripted scripted
      (start [[102, 1, 0x40, 0xBB, 0xB0, 0x08]] 255)
      (start [[102, 1, 0x40, 0xBB, 0xB0, 0x08]] 255)
      (padded [102, 1, 0x40, 0xBB, 0xB0, 0x08]) (padded [102, 1, 0x40, 0xBB, 0xB0, 0x08])
      [] [] rfl rfl rfl rfl).2 145800000 (by decide) (by decide)⟩

end Fcdpp
